import Mathlib

/-!
# Layout engine of `tongchangzuhe` (`src/main.go`)

A shallow embedding of the layout engine: `StationStatus` (lines 96-154),
`Arrange` (lines 156-213), `reverse` (lines 17-21), `ComposeStations` (lines
247-412) and the loader `readSegment` / `ReadStationsFile` (lines 421-505),
followed by the properties established about them.

Modelling conventions

* a Go `[]string` is a `List String`; Go `int` values are `Int` (no value in
  these functions comes near the 64-bit range: every integer is a slice index,
  a slice length, or `length/2 - 1`);
* Go `%` and `/` on `int` truncate toward zero: `Int.tmod` and `Int.tdiv`;
* `Arrange` has three possible outcomes: it returns a row, it returns one of
  its five `errors.New` values, or the run-time aborts with an index out of
  range. They are the three constructors of `Outcome`.
-/

namespace Tongchangzuhe

/-! ## `slices.Index` -/

/-- First index of `v` in `s`, or `-1` when `v` does not occur (`slices.Index`). -/
def slicesIndex : List String → String → Int
  | [], _ => -1
  | x :: xs, v =>
    if x = v then 0
    else if slicesIndex xs v < 0 then -1
    else slicesIndex xs v + 1

/-! ## `StationStatus` (lines 96-154) -/

/-- Body of the `for i := range stations` loop of `StationStatus`: the token
stored in `out[i]`, for `n = len(stations)` and `nCurrent` the result of
`slices.Index(stations, current)`. -/
def statusToken (n : Nat) (nCurrent : Int) (ltr : Bool) (i : Nat) : String :=
  if ((i : Int) = 0 ∧ ltr = true) ∨ ((i : Int) = (n : Int) - 1 ∧ ltr = false) then
    if (i : Int) = nCurrent then
      if ltr = false then "@" else "@#"
    else
      if ltr = false then "=" else "#="
  else if ((i : Int) = 0 ∧ ltr = false) ∨ ((i : Int) = (n : Int) - 1 ∧ ltr = true) then
    if (i : Int) = nCurrent then
      if ltr = false then "@=" else "@#="
    else
      if ltr = false then "" else "#"
  else
    if (i : Int) = nCurrent then
      if ltr = false then "@" else "@="
    else if ((i : Int) < nCurrent ∧ ltr = false) ∨ ((i : Int) > nCurrent ∧ ltr = true) then
      ""
    else
      "="

/-- The Go function `StationStatus`: one token per station index. -/
def StationStatus (stations : List String) (current : String) (ltr : Bool) : List String :=
  let nCurrent := slicesIndex stations current
  (List.range stations.length).map (statusToken stations.length nCurrent ltr)

/-! ## `Arrange` (lines 156-213) -/

/-- The five values `Arrange` builds with `errors.New`, in source order. -/
inductive ArrangeError where
  /-- line 160: "单元素居中时 length 必须为奇数" -/
  | parity
  /-- line 165: "center 长度只能为 1 或 2" -/
  | shape
  /-- line 169: "stations 长度不能大于 length" -/
  | tooLong
  /-- line 182: "center 单元素不在 stations 中" -/
  | singleNotFound
  /-- line 190: "center 两元素不是 stations 中相邻且顺序一致" -/
  | pairNotFound
  deriving DecidableEq, Repr

/-- What a call of `Arrange` can do. -/
inductive Outcome where
  /-- the call returns `out, nil` -/
  | row (out : List String)
  /-- the call returns `nil, err` -/
  | error (e : ArrangeError)
  /-- the run-time stops the program (index out of range) -/
  | outOfRange
  deriving DecidableEq, Repr

/-- Loop of lines 176-181: first `i` with `stations[i] == c0`. -/
def findSingle : List String → String → Option Nat
  | [], _ => none
  | v :: vs, c0 => if v = c0 then some 0 else (findSingle vs c0).map (· + 1)

/-- Loop of lines 184-189: first `i <= len(stations)-2` with
`stations[i] == c0 && stations[i+1] == c1`. -/
def findPair : List String → String → String → Option Nat
  | a :: b :: rest, c0, c1 =>
    if a = c0 ∧ b = c1 then some 0 else (findPair (b :: rest) c0 c1).map (· + 1)
  | _, _, _ => none

/-- Loop of lines 209-211, from station index `i` on: `toks` are the tokens
`"tc" + stations[j] + status[j]` for `j = i, i+1, ...`; each is stored at
`out[offset+j]`, and a store outside `0 <= offset+j < len(out)` stops the
program (`none`). -/
def writeCells (offset : Int) : List String → Nat → List String → Option (List String)
  | out, _, [] => some out
  | out, i, t :: ts =>
    if 0 ≤ offset + (i : Int) ∧ offset + (i : Int) < (out.length : Int) then
      writeCells offset (out.set (offset + (i : Int)).toNat t) (i + 1) ts
    else none

/-- The tokens `"tc" + stations[i] + status[i]`, `i = 0, 1, ...` (line 210). -/
def stationTokens (stations : List String) (current : String) (ltr : Bool) : List String :=
  List.zipWith (fun s st => "tc" ++ s ++ st) stations (StationStatus stations current ltr)

/-- Lines 194-200: the row index wanted for the first anchor element (the
`switch len(center)` has no default, so the variable keeps its zero value
for any other size). -/
def centerStartWant (center : List String) (length : Int) : Int :=
  if center.length = 1 then length.tdiv 2
  else if center.length = 2 then length.tdiv 2 - 1
  else 0

/-- Lines 193-212, from the label `found` on, with `p` the start index. A
negative `length` cannot reach `make` (line 168 returns first); the model sends
it to `outOfRange` like every other run-time stop. -/
def place (stations center : List String) (current : String) (ltr : Bool)
    (length : Int) (blank : String) (p : Nat) : Outcome :=
  let offset : Int := centerStartWant center length - (p : Int)
  if length < 0 then Outcome.outOfRange
  else
    match writeCells offset (List.replicate length.toNat blank) 0
        (stationTokens stations current ltr) with
    | some r => Outcome.row r
    | none => Outcome.outOfRange

/-- Lines 172-191: the search for the start index `p`, selected by
`length % 2` (a Go `switch` with cases `1` and `0` and no default: for any
other remainder `p` keeps its zero value and control reaches `found`).
`Except.error` is an error returned by `Arrange`; `none` is an index out of
range on `center`, which lines 157-166 exclude (`center` has one or two
elements, and two when `length` is even). -/
def search (stations center : List String) (length : Int) :
    Option (Except ArrangeError Nat) :=
  if length.tmod 2 = 1 then
    match center with
    | [] => none
    | c0 :: _ =>
      match findSingle stations c0 with
      | some p => some (Except.ok p)
      | none => some (Except.error ArrangeError.singleNotFound)
  else if length.tmod 2 = 0 then
    match stations with
    | _ :: _ :: _ =>
      match center with
      | c0 :: c1 :: _ =>
        (match findPair stations c0 c1 with
        | some p => some (Except.ok p)
        | none => some (Except.error ArrangeError.pairNotFound))
      | _ => none
    | _ => some (Except.error ArrangeError.pairNotFound)
  else some (Except.ok 0)

/-- The Go function `Arrange`. -/
def Arrange (stations center : List String) (current : String) (ltr : Bool)
    (length : Int) (blank : String) : Outcome :=
  if center.length = 1 ∧ length.tmod 2 = 0 then Outcome.error ArrangeError.parity
  else if center.length ≠ 1 ∧ center.length ≠ 2 then Outcome.error ArrangeError.shape
  else if (stations.length : Int) > length then Outcome.error ArrangeError.tooLong
  else
    match search stations center length with
    | none => Outcome.outOfRange
    | some (Except.error e) => Outcome.error e
    | some (Except.ok p) => place stations center current ltr length blank p

/-! ## Vocabulary of the specification -/

/-- The anchor precondition of the Row Arranger in the specification's words:
a 1-element anchor occurs in `stations`; a 2-element anchor occurs as two
neighbouring stations, in order. -/
def Locatable (stations center : List String) : Prop :=
  match center with
  | [c0] => ∃ p : Nat, stations[p]? = some c0
  | [c0, c1] => ∃ p : Nat, stations[p]? = some c0 ∧ stations[p + 1]? = some c1
  | _ => False

/-- A token begins with `@` (the "current position" class of status tokens). -/
def beginsWithAt (t : String) : Bool :=
  t.data.head? = some '@'

/-- The closed set of status tokens listed in the specification's data model. -/
def statusTokens : List String :=
  ["", "=", "#", "@", "@=", "@#", "@#=", "#="]

/-- Number of cells of a row that differ from the blank filler. -/
def nonBlankCount (blank : String) (row : List String) : Nat :=
  (row.filter (fun c => decide (c ≠ blank))).length

/-! ## `reverse` (lines 17-21) -/

/-- The assignment `s[i], s[j] = s[j], s[i]`. -/
def swap (s : List String) (i j : Nat) : List String :=
  match s[i]?, s[j]? with
  | some a, some b => (s.set i b).set j a
  | _, _ => s

/-- The loop `for i, j := 0, len(s)-1; i < j; i, j = i+1, j-1`, from the
values `i`, `j` on; the first argument bounds the number of iterations. -/
def reverseLoop : Nat → List String → Nat → Int → List String
  | 0, s, _, _ => s
  | fuel + 1, s, i, j =>
    if (i : Int) < j then reverseLoop fuel (swap s i j.toNat) (i + 1) (j - 1) else s

/-- The Go function `reverse`; the value is the slice after the call. The
loop makes at most `len(s)/2` iterations. -/
def reverse (s : List String) : List String :=
  reverseLoop s.length s 0 ((s.length : Int) - 1)

/-! ## `ComposeStations` (lines 247-412)

`ComposeStations` returns nothing: what it does is call `GenImage` once for
every sign. The model returns the list of these calls, in order, and how the
run ends. `GenImage` (lines 79-94) reads the tile files and writes the image,
and ends the program with `log.Fatal` when that fails: whether a call returns
depends on the file system, so it is a parameter of the model, `genImage n
files filename` telling whether call number `n` returns. `fmt.Println` and the
constant `path` argument are left out. `config` is given as its two rows
`config[0]`, `config[1]`. Strings are UTF-8 text; `len` and the slice of line
248 count bytes. -/

/-- One call `GenImage(files, filename, path)`. The fields after `filename`
are not arguments of the call: they record the loop iteration and the block
that made it, and the `Arrange` call whose row went into `files`. -/
structure Emitted where
  /-- the tile grid -/
  files : List (List String)
  /-- the output name -/
  filename : String
  /-- record: the station of the loop iteration -/
  station : String
  /-- record: the config code the block tested -/
  code : String
  /-- record: the call is made in the second loop, after the four `reverse` -/
  mirrored : Bool
  /-- record: the call is made by a `>` block (which passes `ltr = true`) -/
  rightward : Bool
  /-- record: the `length` argument of the block's `Arrange` call -/
  length : Int
  /-- record: what the block's `Arrange` call returned -/
  arranged : Outcome
  deriving DecidableEq, Repr

/-- What one `if config[r][num][0] == ... { ... }` block does. -/
inductive Step where
  /-- the run-time stops the program -/
  | crash
  /-- the condition is false: nothing is generated -/
  | skip
  /-- the block calls `GenImage` -/
  | emit (e : Emitted)
  deriving DecidableEq, Repr

/-- How a run of `ComposeStations` ends. -/
inductive Ending where
  /-- the function returns -/
  | completed
  /-- the run-time stops the program (index or slice bounds out of range) -/
  | stopped
  /-- the last call of `GenImage` ends the program with `log.Fatal` -/
  | fatal
  /-- line 248 cuts a character of `stations[0]` in two: the tile names of the
  run are not UTF-8 text, and the model says nothing about the run -/
  | notText
  deriving DecidableEq, Repr

/-- Result of a run of `ComposeStations`. -/
structure Run where
  /-- the calls of `GenImage`, in order -/
  calls : List Emitted
  /-- how the run ends after them -/
  ending : Ending
  deriving DecidableEq, Repr

/-- The statement `row2, _ := Arrange(...)`: an error is discarded and `row2`
is the nil slice; `none` when `Arrange` stops the program. -/
def rowOrNil : Outcome → Option (List String)
  | Outcome.row r => some r
  | Outcome.error _ => some []
  | Outcome.outOfRange => none

/-- Lines 279-283: the `length` of a compact sign. -/
def compactLength (stations : List String) : Int :=
  if stations.length ≤ 14 then 14 else 15

/-- Lines 254-259: `arrow` of a `<` block. -/
def leftArrow (num : Nat) : String :=
  if num ≠ 0 then "tczuo" else ""

/-- Lines 255-259: `towards` of a `<` block. -/
def leftTowards (line direction : String) (num : Nat) : String × String :=
  if num ≠ 0 then ("tckaiwang", "tckw" ++ line ++ direction) else ("tczhongdianzhan", "")

/-- Lines 261-269: `row1` of a detailed sign in a `<` block. -/
def leftDetailedHeader (line direction station : String) (num : Nat) : List String :=
  ["", "", "", "", "", "",
   leftArrow num,
   "tc" ++ line ++ direction,
   "tcfenge",
   "tczm" ++ station, "",
   (leftTowards line direction num).1, (leftTowards line direction num).2, "",
   "", "", "", "", "", ""]

/-- Lines 273-283: `row1` of a compact sign in a `<` block. -/
def leftCompactHeader (stations : List String) (line direction station : String)
    (num : Nat) : List String :=
  let row1 := [leftArrow num,
    "tc" ++ line ++ direction,
    (leftTowards line direction num).1, (leftTowards line direction num).2, "",
    "tczm" ++ station, ""]
  if stations.length ≤ 14 then row1 ++ ["tc" ++ line ++ "zuo"] else row1

/-- Lines 292-297: `arrow` of a `>` block. -/
def rightArrow (stations : List String) (num : Nat) : String :=
  if (num : Int) ≠ (stations.length : Int) - 1 then "tcyou" else ""

/-- Lines 293-297: `towards` of a `>` block. -/
def rightTowards (stations : List String) (line direction : String) (num : Nat) :
    String × String × String :=
  if (num : Int) ≠ (stations.length : Int) - 1 then
    ("tckaiwang", "tckw" ++ line ++ direction, "")
  else ("", "tczhongdianzhan", "")

/-- Lines 299-307: `row1` of a detailed sign in a `>` block. -/
def rightDetailedHeader (stations : List String) (line direction station : String)
    (num : Nat) : List String :=
  ["", "", "", "", "", "",
   (rightTowards stations line direction num).1,
   (rightTowards stations line direction num).2.1,
   (rightTowards stations line direction num).2.2,
   "tczm" ++ station, "",
   "tcfenge",
   "tc" ++ line ++ direction,
   rightArrow stations num,
   "", "", "", "", "", ""]

/-- Lines 311-321: `row1` of a compact sign in a `>` block. -/
def rightCompactHeader (stations : List String) (line direction station : String)
    (num : Nat) : List String :=
  let row1 := ["tczm" ++ station, "",
    (rightTowards stations line direction num).1,
    (rightTowards stations line direction num).2.1,
    (rightTowards stations line direction num).2.2,
    "tc" ++ line ++ direction,
    rightArrow stations num]
  if stations.length ≤ 14 then ["tc" ++ line ++ "you"] ++ row1 else row1

/-- A `<` block (lines 251-288 with `direction = "+"`, lines 335-372 with
`direction = "-"`), for the code `code` found at `[num]` of the config row the
block reads. `code[0]` on the empty string stops the program. -/
def leftBlock (stations center : List String) (line direction : String) (mirrored : Bool)
    (num : Nat) (station code : String) : Step :=
  match code.data with
  | [] => Step.crash
  | c :: _ =>
    if c ≠ '<' then Step.skip
    else if code = "<2" then
      match rowOrNil (Arrange stations center station false 20 ("tc" ++ line)) with
      | none => Step.crash
      | some row2 =>
        Step.emit
          { files := [leftDetailedHeader line direction station num, row2]
            filename := "sh" ++ station ++ direction
            station := station
            code := code
            mirrored := mirrored
            rightward := false
            length := 20
            arranged := Arrange stations center station false 20 ("tc" ++ line) }
    else
      match rowOrNil (Arrange stations center station false (compactLength stations)
          ("tc" ++ line)) with
      | none => Step.crash
      | some row2 =>
        Step.emit
          { files := [leftCompactHeader stations line direction station num ++ row2]
            filename := "dh" ++ station ++ direction
            station := station
            code := code
            mirrored := mirrored
            rightward := false
            length := compactLength stations
            arranged := Arrange stations center station false (compactLength stations)
              ("tc" ++ line) }

/-- A `>` block (lines 289-326 with `direction = "-"`, lines 373-410 with
`direction = "+"`). -/
def rightBlock (stations center : List String) (line direction : String) (mirrored : Bool)
    (num : Nat) (station code : String) : Step :=
  match code.data with
  | [] => Step.crash
  | c :: _ =>
    if c ≠ '>' then Step.skip
    else if code = ">2" then
      match rowOrNil (Arrange stations center station true 20 ("tc" ++ line)) with
      | none => Step.crash
      | some row2 =>
        Step.emit
          { files := [rightDetailedHeader stations line direction station num, row2]
            filename := "sh" ++ station ++ direction ++ "#"
            station := station
            code := code
            mirrored := mirrored
            rightward := true
            length := 20
            arranged := Arrange stations center station true 20 ("tc" ++ line) }
    else
      match rowOrNil (Arrange stations center station true (compactLength stations)
          ("tc" ++ line)) with
      | none => Step.crash
      | some row2 =>
        Step.emit
          { files := [row2 ++ rightCompactHeader stations line direction station num]
            filename := "dh" ++ station ++ direction ++ "#"
            station := station
            code := code
            mirrored := mirrored
            rightward := true
            length := compactLength stations
            arranged := Arrange stations center station true (compactLength stations)
              ("tc" ++ line) }

/-- The element `row[num]` of a config row, then the block; an index past the
end of the row stops the program. -/
def blockAt (block : Nat → String → String → Step) (row : List String) (num : Nat)
    (station : String) : Step :=
  match row[num]? with
  | none => Step.crash
  | some code => block num station code

/-- One loop `for num, station := range stations` (lines 250-327 or 334-411),
from index `num` on, `rest` being the stations from that index: the `<` block
on the row `cfgLeft`, then the `>` block on the row `cfgRight`. -/
def passSteps (stations center cfgLeft cfgRight : List String)
    (line dirLeft dirRight : String) (mirrored : Bool) : Nat → List String → List Step
  | _, [] => []
  | num, station :: rest =>
    blockAt (leftBlock stations center line dirLeft mirrored) cfgLeft num station ::
    blockAt (rightBlock stations center line dirRight mirrored) cfgRight num station ::
    passSteps stations center cfgLeft cfgRight line dirLeft dirRight mirrored (num + 1) rest

/-- The calls made by a sequence of blocks, `n` calls having been made before:
a block that stops the program ends the run, and so does a call of `GenImage`
that does not return. -/
def runSteps (genImage : Nat → List (List String) → String → Bool) :
    Nat → List Step → Run
  | _, [] => { calls := [], ending := Ending.completed }
  | _, Step.crash :: _ => { calls := [], ending := Ending.stopped }
  | n, Step.skip :: rest => runSteps genImage n rest
  | n, Step.emit e :: rest =>
    if genImage n e.files e.filename = true then
      { calls := e :: (runSteps genImage (n + 1) rest).calls
        ending := (runSteps genImage (n + 1) rest).ending }
    else { calls := [e], ending := Ending.fatal }

/-- Number of bytes of a character in UTF-8. -/
def utf8Width (c : Char) : Nat :=
  if c.toNat < 128 then 1
  else if c.toNat < 2048 then 2
  else if c.toNat < 65536 then 3
  else 4

/-- The Go `len` of a string: its number of bytes. -/
def byteLen : List Char → Nat
  | [] => 0
  | c :: cs => utf8Width c + byteLen cs

/-- The slice `s[:n]` for `n <= len(s)`: the characters that make up the first
`n` bytes, `none` when byte `n` lies inside a character. -/
def takeBytes : List Char → Nat → Option (List Char)
  | _, 0 => some []
  | [], _ + 1 => none
  | c :: cs, n + 1 =>
    if utf8Width c ≤ n + 1 then (takeBytes cs (n + 1 - utf8Width c)).map (c :: ·)
    else none

/-- Result of line 248. -/
inductive LineCut where
  /-- the run-time stops the program: no station, or a first id shorter than
  three bytes -/
  | stop
  /-- the value of `line` -/
  | text (line : String)
  /-- the cut lies inside a character -/
  | notText
  deriving DecidableEq, Repr

/-- Line 248: `stations[0][:len(stations[0])-3]`. -/
def lineOf (stations : List String) : LineCut :=
  match stations with
  | [] => LineCut.stop
  | s0 :: _ =>
    if byteLen s0.data < 3 then LineCut.stop
    else
      match takeBytes s0.data (byteLen s0.data - 3) with
      | some l => LineCut.text (String.mk l)
      | none => LineCut.notText

/-- The blocks of both loops, in order: the loop over the given slices, then
the loop over the reversed slices, where the `<` block reads `config[1]` and
the `>` block reads `config[0]`. -/
def allSteps (stations center config0 config1 : List String) (line : String) : List Step :=
  passSteps stations center config0 config1 line "+" "-" false 0 stations ++
  passSteps (reverse stations) (reverse center) (reverse config1) (reverse config0)
    line "-" "+" true 0 (reverse stations)

/-- The Go function `ComposeStations`. -/
def ComposeStations (genImage : Nat → List (List String) → String → Bool)
    (stations center config0 config1 : List String) : Run :=
  match lineOf stations with
  | LineCut.stop => { calls := [], ending := Ending.stopped }
  | LineCut.notText => { calls := [], ending := Ending.notText }
  | LineCut.text line => runSteps genImage 0 (allSteps stations center config0 config1 line)

/-! ## `readSegment` and `ReadStationsFile` (lines 421-505)

The scanner is modelled by the list of the lines it still has to deliver (the
file opens, no line exceeds the scanner's buffer, the text is valid UTF-8).
The separators `:` and `,` and the space are single bytes, so cutting at them
is the same on bytes and on characters. -/

/-- One segment (lines 415-419), `config` given as its two rows. -/
structure Segment where
  /-- field `stations` -/
  stations : List String
  /-- field `center` -/
  center : List String
  /-- row `config[0]` -/
  config0 : List String
  /-- row `config[1]` -/
  config1 : List String
  deriving DecidableEq, Repr

/-- White space as `strings.TrimSpace` sees it (`unicode.IsSpace`). -/
def isSpace (c : Char) : Bool :=
  c.toNat = 9 || c.toNat = 10 || c.toNat = 11 || c.toNat = 12 || c.toNat = 13 ||
  c.toNat = 32 || c.toNat = 133 || c.toNat = 160 || c.toNat = 5760 ||
  (8192 ≤ c.toNat && c.toNat ≤ 8202) || c.toNat = 8232 || c.toNat = 8233 ||
  c.toNat = 8239 || c.toNat = 8287 || c.toNat = 12288

/-- The function `strings.TrimSpace`, on the characters of the string. -/
def trimSpace (l : List Char) : List Char :=
  ((l.dropWhile isSpace).reverse.dropWhile isSpace).reverse

/-- The function `strings.Index` for a one-character separator (`none` for -1). -/
def indexOfChar (c : Char) : List Char → Option Nat
  | [] => none
  | x :: xs => if x = c then some 0 else (indexOfChar c xs).map (· + 1)

/-- The function `strings.LastIndex` for a one-character separator. -/
def lastIndexOfChar (c : Char) : List Char → Option Nat
  | [] => none
  | x :: xs =>
    match lastIndexOfChar c xs with
    | some k => some (k + 1)
    | none => if x = c then some 0 else none

/-- Lines 463-466: the position `sep` (`none` for -1). -/
def sepIndex (line : List Char) : Option Nat :=
  match lastIndexOfChar ':' line with
  | some k => some k
  | none => indexOfChar ',' line

/-- The function `strings.Split(s, ",")`: one field more than there are commas. -/
def splitComma : List Char → List (List Char)
  | [] => [[]]
  | c :: cs =>
    if c = ',' then [] :: splitComma cs
    else
      match splitComma cs with
      | [] => [[c]]
      | f :: fs => (c :: f) :: fs

/-- The local variables of `readSegment` (lines 447-454). -/
structure ReadVars where
  /-- variable `stations` -/
  stations : List String
  /-- variable `center` -/
  center : List String
  /-- variable `row0` -/
  row0 : List String
  /-- variable `row1` -/
  row1 : List String
  /-- variable `first` -/
  first : Bool
  deriving DecidableEq, Repr

/-- Lines 480-486: the first line with a separator sets `center`. -/
def centerOf (right : List String) (old : List String) : List String :=
  match right with
  | a :: b :: _ => [a, b]
  | [a] => [a]
  | [] => old

/-- Lines 490-497: the `switch len(right)` that fills `row0`; it has the
cases 1 and 2 and no default. -/
def fillRow0 (right : List String) (row0 : List String) : List String :=
  match right with
  | [a] => row0 ++ [a]
  | [a, _] => row0 ++ [a]
  | _ => row0

/-- Lines 490-497: the same `switch`, for `row1`. -/
def fillRow1 (right : List String) (row1 : List String) : List String :=
  match right with
  | [a] => row1 ++ [a]
  | [_, b] => row1 ++ [b]
  | _ => row1

/-- The loop `for scanner.Scan()` of lines 456-499: the variables at the end
of the loop and the lines left in the scanner. -/
def readLoop : List String → ReadVars → ReadVars × List String
  | [], v => (v, [])
  | text :: rest, v =>
    if trimSpace text.data = [] then (v, rest)
    else
      match sepIndex ((trimSpace text.data).filter (fun c => c ≠ ' ')) with
      | none => readLoop rest v
      | some sep =>
        if v.first then
          readLoop rest
            { v with
              first := false
              center := centerOf
                ((splitComma (((trimSpace text.data).filter (fun c => c ≠ ' ')).drop
                  (sep + 1))).map String.mk) v.center }
        else
          readLoop rest
            { v with
              stations := v.stations ++
                [String.mk (((trimSpace text.data).filter (fun c => c ≠ ' ')).take sep)]
              row0 := fillRow0
                ((splitComma (((trimSpace text.data).filter (fun c => c ≠ ' ')).drop
                  (sep + 1))).map String.mk) v.row0
              row1 := fillRow1
                ((splitComma (((trimSpace text.data).filter (fun c => c ≠ ' ')).drop
                  (sep + 1))).map String.mk) v.row1 }

/-- The Go function `readSegment`: the segment (`none` for `ok = false`) and
the lines left in the scanner. -/
def readSegment (lines : List String) : Option Segment × List String :=
  let r := readLoop lines
    { stations := [], center := [], row0 := [], row1 := [], first := true }
  if r.1.stations.length = 0 then (none, r.2)
  else
    (some { stations := r.1.stations, center := r.1.center,
            config0 := r.1.row0, config1 := r.1.row1 }, r.2)

/-- The loop of lines 432-438; the first argument bounds the number of
segments. -/
def readSegments : Nat → List String → List Segment
  | 0, _ => []
  | fuel + 1, lines =>
    match readSegment lines with
    | (none, _) => []
    | (some seg, rest) => seg :: readSegments fuel rest

/-- The Go function `ReadStationsFile`, on the lines of the file. Every
segment takes at least one line, so `lines.length + 1` calls of `readSegment`
reach the one that returns `ok = false`. -/
def ReadStationsFile (lines : List String) : List Segment :=
  readSegments (lines.length + 1) lines

/-! ## The store loop -/

theorem set_window (t : String) (ts : List String) (m : Nat) :
    ∀ (out : List String) (k : Nat), k < out.length →
      (out.set k t).take (k + 1) ++ ts ++ (out.set k t).drop (k + 1 + m)
        = out.take k ++ (t :: ts) ++ out.drop (k + (m + 1))
  | [], k, hk => by simp at hk
  | x :: xs, 0, _ => by
    simp [Nat.add_comm]
  | x :: xs, k + 1, hk => by
    have hk2 : k < xs.length := by simpa using hk
    have ih := set_window t ts m xs k hk2
    have e1 : k + 1 + 1 + m = (k + 1 + m) + 1 := by omega
    have e2 : k + 1 + (m + 1) = (k + (m + 1)) + 1 := by omega
    simp only [List.set_cons_succ, List.take_succ_cons, List.cons_append, e1, e2,
      List.drop_succ_cons]
    rw [ih]

/-- The store loop either completes, and then it has replaced the window of
`out` that starts at `offset + i` by the tokens, or it stops the program; it
completes exactly when the window lies inside `out`. -/
theorem writeCells_eq (offset : Int) :
    ∀ (toks out : List String) (i : Nat),
      writeCells offset out i toks =
        if toks = [] ∨ (0 ≤ offset + (i : Int) ∧
            offset + (i : Int) + (toks.length : Int) ≤ (out.length : Int)) then
          some (out.take (offset + (i : Int)).toNat ++ toks ++
            out.drop ((offset + (i : Int)).toNat + toks.length))
        else none
  | [], out, i => by simp [writeCells]
  | t :: ts, out, i => by
    unfold writeCells
    by_cases hin : 0 ≤ offset + (i : Int) ∧ offset + (i : Int) < (out.length : Int)
    · rw [if_pos hin, writeCells_eq offset ts (out.set (offset + (i : Int)).toNat t) (i + 1)]
      obtain ⟨h0, h1⟩ := hin
      have hk : (offset + (i : Int)).toNat < out.length := by omega
      have hk1 : (offset + ((i + 1 : Nat) : Int)).toNat = (offset + (i : Int)).toNat + 1 := by
        push_cast; omega
      rw [hk1, set_window t ts ts.length out _ hk]
      by_cases hts : ts = []
      · subst hts
        have : offset + (i : Int) + 1 ≤ (out.length : Int) := by omega
        simp [h0, this]
      · have hc : (0 ≤ offset + ((i + 1 : Nat) : Int) ∧
            offset + ((i + 1 : Nat) : Int) + (ts.length : Int)
              ≤ ((out.set (offset + (i : Int)).toNat t).length : Int)) ↔
            (0 ≤ offset + (i : Int) ∧
              offset + (i : Int) + ((t :: ts).length : Int) ≤ (out.length : Int)) := by
          simp only [List.length_set, List.length_cons]; push_cast; omega
        simp only [hts, false_or, hc, List.length_cons, reduceCtorEq]
    · rw [if_neg hin, if_neg]
      simp only [reduceCtorEq, false_or, List.length_cons]
      push_cast
      intro h
      apply hin
      omega

/-! ## Facts about `slices.Index` and `StationStatus` -/

theorem slicesIndex_ge (v : String) : ∀ s : List String, -1 ≤ slicesIndex s v
  | [] => by simp [slicesIndex]
  | x :: xs => by
    have := slicesIndex_ge v xs
    unfold slicesIndex
    split_ifs <;> omega

theorem slicesIndex_absent (v : String) :
    ∀ s : List String, v ∉ s → slicesIndex s v = -1
  | [], _ => by simp [slicesIndex]
  | x :: xs, h => by
    have hx : ¬ x = v := fun e => h (by simp [e])
    have hxs : v ∉ xs := fun e => h (by simp [e])
    have := slicesIndex_absent v xs hxs
    simp [slicesIndex, hx, this]

theorem slicesIndex_present (v : String) :
    ∀ s : List String, v ∈ s →
      ∃ k : Nat, slicesIndex s v = (k : Int) ∧ s[k]? = some v ∧ ∀ j, j < k → s[j]? ≠ some v
  | [], h => by simp at h
  | x :: xs, h => by
    by_cases hx : x = v
    · exact ⟨0, by simp [slicesIndex, hx], by simp [hx], by intro j hj; omega⟩
    · have hxs : v ∈ xs := by
        rcases List.mem_cons.mp h with e | e
        · exact absurd e.symm hx
        · exact e
      obtain ⟨k, hk, hget, hmin⟩ := slicesIndex_present v xs hxs
      refine ⟨k + 1, ?_, by simpa using hget, ?_⟩
      · simp only [slicesIndex, hx, if_false, hk]
        have : ¬ ((k : Int) < 0) := by omega
        simp [this]
      · intro j hj
        cases j with
        | zero => simpa using hx
        | succ j => simpa using hmin j (by omega)

theorem StationStatus_length (stations : List String) (current : String) (ltr : Bool) :
    (StationStatus stations current ltr).length = stations.length := by
  simp [StationStatus]

theorem StationStatus_getElem? (stations : List String) (current : String) (ltr : Bool)
    (i : Nat) (hi : i < stations.length) :
    (StationStatus stations current ltr)[i]? =
      some (statusToken stations.length (slicesIndex stations current) ltr i) := by
  simp [StationStatus, List.getElem?_range hi]

theorem beginsWithAt_statusToken (n : Nat) (nCurrent : Int) (ltr : Bool) (i : Nat) :
    beginsWithAt (statusToken n nCurrent ltr i) = true ↔ (i : Int) = nCurrent := by
  unfold statusToken
  split_ifs <;> simp_all [beginsWithAt]

theorem statusToken_mem (n : Nat) (nCurrent : Int) (ltr : Bool) (i : Nat) :
    statusToken n nCurrent ltr i ∈ statusTokens := by
  unfold statusToken statusTokens
  split_ifs <;> simp

/-! ## Facts about `Arrange` -/

theorem stationTokens_length (stations : List String) (current : String) (ltr : Bool) :
    (stationTokens stations current ltr).length = stations.length := by
  simp [stationTokens, StationStatus_length]

theorem tmod_two_of_even (length : Int) (h : Even length) : length.tmod 2 = 0 :=
  Int.tmod_eq_zero_of_dvd (even_iff_two_dvd.mp h)

theorem tmod_two_of_not_even (length : Int) (h : ¬ Even length) : length.tmod 2 ≠ 0 :=
  fun e => h (even_iff_two_dvd.mpr (Int.dvd_of_tmod_eq_zero e))

theorem tmod_two_of_odd (length : Int) (h0 : 0 ≤ length) (h : Odd length) :
    length.tmod 2 = 1 := by
  rw [Int.tmod_eq_emod h0 (by decide)]
  exact Int.odd_iff.mp h

/-- A completed store loop leaves the length of the row unchanged and replaces
one window of it by the tokens. -/
theorem writeCells_some (offset : Int) (toks out r : List String) (i : Nat)
    (h : writeCells offset out i toks = some r) :
    r.length = out.length ∧
    (toks ≠ [] → 0 ≤ offset + (i : Int) ∧
      offset + (i : Int) + (toks.length : Int) ≤ (out.length : Int)) ∧
    r = out.take (offset + (i : Int)).toNat ++ toks ++
          out.drop ((offset + (i : Int)).toNat + toks.length) := by
  rw [writeCells_eq] at h
  split_ifs at h with hc
  cases h
  refine ⟨?_, ?_, rfl⟩
  · simp only [List.length_append, List.length_take, List.length_drop]
    rcases hc with hc | hc
    · subst hc
      simp only [List.length_nil]
      omega
    · omega
  · intro hne
    rcases hc with hc | hc
    · exact absurd hc hne
    · exact hc

/-- Whenever `Arrange` returns a row, the validation of lines 157-170 has
passed, the search of lines 172-191 has produced a start index, and the row is
what the store loop makes of the all-blank row. -/
theorem Arrange_row_inv (stations center : List String) (current : String) (ltr : Bool)
    (length : Int) (blank : String) (r : List String)
    (h : Arrange stations center current ltr length blank = Outcome.row r) :
    (center.length = 1 ∨ center.length = 2) ∧
    ¬ (center.length = 1 ∧ length.tmod 2 = 0) ∧
    (stations.length : Int) ≤ length ∧
    ∃ p : Nat, search stations center length = some (Except.ok p) ∧
      writeCells (centerStartWant center length - (p : Int))
        (List.replicate length.toNat blank) 0 (stationTokens stations current ltr) = some r := by
  unfold Arrange at h
  split_ifs at h with h1 h2 h3
  have hlen : (stations.length : Int) ≤ length := by omega
  refine ⟨by omega, h1, hlen, ?_⟩
  split at h
  · cases h
  · cases h
  · rename_i p hp
    refine ⟨p, hp, ?_⟩
    unfold place at h
    have h0 : ¬ length < 0 := by omega
    simp only [h0, if_false] at h
    split at h
    · rename_i r2 hr
      cases h
      exact hr
    · cases h

/-- A row returned by `Arrange` has `length` cells. -/
theorem Arrange_row_length (stations center : List String) (current : String) (ltr : Bool)
    (length : Int) (blank : String) (r : List String)
    (h : Arrange stations center current ltr length blank = Outcome.row r) :
    (r.length : Int) = length := by
  obtain ⟨_, _, hlen, p, _, hw⟩ := Arrange_row_inv stations center current ltr length blank r h
  obtain ⟨hl, _, _⟩ := writeCells_some _ _ _ _ _ hw
  rw [hl, List.length_replicate]
  omega

theorem findSingle_of_getElem? (c0 : String) :
    ∀ (stations : List String) (p : Nat), stations[p]? = some c0 →
      ∃ q, findSingle stations c0 = some q
  | [], p, h => by simp at h
  | v :: vs, p, h => by
    unfold findSingle
    by_cases hv : v = c0
    · exact ⟨0, by rw [if_pos hv]⟩
    · cases p with
      | zero => simp at h; exact absurd h hv
      | succ p =>
        obtain ⟨q, hq⟩ := findSingle_of_getElem? c0 vs p (by simpa using h)
        exact ⟨q + 1, by rw [if_neg hv, hq]; rfl⟩

theorem findPair_of_getElem? (c0 c1 : String) :
    ∀ (stations : List String) (p : Nat),
      stations[p]? = some c0 → stations[p + 1]? = some c1 →
      ∃ q, findPair stations c0 c1 = some q
  | [], p, h, _ => by simp at h
  | [a], p, _, h => by simp at h
  | a :: b :: rest, p, h0, h1 => by
    unfold findPair
    by_cases hv : a = c0 ∧ b = c1
    · exact ⟨0, by rw [if_pos hv]⟩
    · cases p with
      | zero =>
        simp at h0 h1
        exact absurd ⟨h0, h1⟩ hv
      | succ p =>
        obtain ⟨q, hq⟩ := findPair_of_getElem? c0 c1 (b :: rest) p
          (by simpa using h0) (by simpa using h1)
        exact ⟨q + 1, by rw [if_neg hv, hq]; rfl⟩

/-- Under the documented preconditions the search of lines 172-191 produces a
start index. -/
theorem search_of_locatable (stations center : List String) (length : Int)
    (hpar : center.length = 1 → Odd length) (h0 : 0 ≤ length)
    (hloc : Locatable stations center) :
    ∃ p : Nat, search stations center length = some (Except.ok p) := by
  match center, hpar, hloc with
  | [c0], hpar, hloc =>
    obtain ⟨p, hp⟩ := hloc
    obtain ⟨q, hq⟩ := findSingle_of_getElem? c0 stations p hp
    exact ⟨q, by simp [search, tmod_two_of_odd length h0 (hpar rfl), hq]⟩
  | [c0, c1], _, hloc =>
    obtain ⟨p, hp0, hp1⟩ := hloc
    have hm : length.tmod 2 = length % 2 := Int.tmod_eq_emod h0 (by decide)
    rcases Int.emod_two_eq length with he | he
    · obtain ⟨q, hq⟩ := findPair_of_getElem? c0 c1 stations p hp0 hp1
      match stations, hq with
      | a :: b :: rest, hq =>
        exact ⟨q, by simp [search, hm, he, hq]⟩
    · obtain ⟨q, hq⟩ := findSingle_of_getElem? c0 stations p hp0
      exact ⟨q, by simp [search, hm, he, hq]⟩

/-- Once validation and search have passed, `Arrange` is `place`. -/
theorem Arrange_eq_place (stations center : List String) (current : String) (ltr : Bool)
    (length : Int) (blank : String) (p : Nat)
    (hshape : center.length = 1 ∨ center.length = 2)
    (hpar : ¬ (center.length = 1 ∧ length.tmod 2 = 0))
    (hlen : (stations.length : Int) ≤ length)
    (hs : search stations center length = some (Except.ok p)) :
    Arrange stations center current ltr length blank
      = place stations center current ltr length blank p := by
  unfold Arrange
  rw [if_neg hpar, if_neg (by omega), if_neg (by omega), hs]

/-- When the window `offset .. offset + len(stations)` lies inside the row,
`place` returns a row. -/
theorem place_row_of_fit (stations center : List String) (current : String) (ltr : Bool)
    (length : Int) (blank : String) (p : Nat) (h0 : 0 ≤ length)
    (hlo : (p : Int) ≤ centerStartWant center length)
    (hhi : centerStartWant center length - (p : Int) + (stations.length : Int) ≤ length) :
    ∃ r, place stations center current ltr length blank p = Outcome.row r := by
  unfold place
  rw [if_neg (by omega), writeCells_eq, if_pos]
  · exact ⟨_, rfl⟩
  · right
    rw [stationTokens_length, List.length_replicate]
    omega

/-- `place` returns a row or stops the program; it returns no error. -/
theorem place_ne_error (stations center : List String) (current : String) (ltr : Bool)
    (length : Int) (blank : String) (p : Nat) (e : ArrangeError) :
    place stations center current ltr length blank p ≠ Outcome.error e := by
  unfold place
  split_ifs
  · simp
  · intro h
    dsimp only at h
    split at h <;> cases h

/-- The check of line 168, once the checks of lines 157-166 have passed. -/
theorem Arrange_length_too_long (stations center : List String) (current : String)
    (ltr : Bool) (length : Int) (blank : String)
    (hshape : center.length = 1 ∨ center.length = 2)
    (hpar : ¬ (center.length = 1 ∧ length.tmod 2 = 0))
    (hlong : (stations.length : Int) > length) :
    Arrange stations center current ltr length blank
      = Outcome.error ArrangeError.tooLong := by
  unfold Arrange
  rw [if_neg hpar, if_neg (by omega), if_pos hlong]

/-! ## Facts about `reverse` -/

theorem swap_window (a m b : List String) (x y : String) :
    swap (a ++ x :: (m ++ y :: b)) a.length (a.length + m.length + 1)
      = a ++ y :: (m ++ x :: b) := by
  have h1 : (a ++ x :: (m ++ y :: b))[a.length]? = some x := by
    rw [List.getElem?_append_right (Nat.le_refl _)]
    simp
  have h2 : (a ++ x :: (m ++ y :: b))[a.length + m.length + 1]? = some y := by
    rw [List.getElem?_append_right (by omega)]
    have e : a.length + m.length + 1 - a.length = m.length + 1 := by omega
    rw [e, List.getElem?_cons_succ, List.getElem?_append_right (Nat.le_refl _)]
    simp
  unfold swap
  rw [h1, h2]
  simp only
  rw [List.set_append_right _ _ (Nat.le_refl _), Nat.sub_self, List.set_cons_zero,
    List.set_append_right _ _ (by omega)]
  have e : a.length + m.length + 1 - a.length = m.length + 1 := by omega
  rw [e, List.set_cons_succ, List.set_append_right _ _ (Nat.le_refl _), Nat.sub_self,
    List.set_cons_zero]

/-- The loop reverses the part of the slice between `i` and `j`. -/
theorem reverseLoop_window :
    ∀ (fuel : Nat) (m a b : List String), m.length ≤ fuel →
      reverseLoop fuel (a ++ m ++ b) a.length ((a.length : Int) + (m.length : Int) - 1)
        = a ++ m.reverse ++ b
  | 0, m, a, b, h => by
    have : m = [] := List.eq_nil_of_length_eq_zero (by omega)
    subst this
    simp [reverseLoop]
  | fuel + 1, m, a, b, h => by
    unfold reverseLoop
    rcases List.eq_nil_or_concat m with hm | ⟨m1, y, hm⟩
    · subst hm
      simp
    · cases m1 with
      | nil =>
        subst hm
        simp
      | cons x m2 =>
        subst hm
        have hlt : ((a.length : Nat) : Int)
            < (a.length : Int) + (((x :: m2).concat y).length : Int) - 1 := by
          simp only [List.concat_eq_append, List.length_append, List.length_cons,
            List.length_nil]
          push_cast
          omega
        rw [if_pos hlt]
        have hj : ((a.length : Int) + (((x :: m2).concat y).length : Int) - 1).toNat
            = a.length + m2.length + 1 := by
          simp only [List.concat_eq_append, List.length_append, List.length_cons,
            List.length_nil]
          push_cast
          omega
        have hs : a ++ (x :: m2).concat y ++ b = a ++ x :: (m2 ++ y :: b) := by simp
        rw [hj, hs, swap_window]
        have ih := reverseLoop_window fuel m2 (a ++ [y]) (x :: b)
          (by simp only [List.concat_eq_append, List.length_append, List.length_cons,
                List.length_nil] at h; omega)
        have e1 : a ++ y :: (m2 ++ x :: b) = (a ++ [y]) ++ m2 ++ (x :: b) := by simp
        have e2 : a.length + 1 = (a ++ [y]).length := by simp
        have e3 : (a.length : Int) + (((x :: m2).concat y).length : Int) - 1 - 1
            = (((a ++ [y]).length : Nat) : Int) + (m2.length : Int) - 1 := by
          simp only [List.concat_eq_append, List.length_append, List.length_cons,
            List.length_nil]
          push_cast
          omega
        rw [e1, e2, e3, ih]
        simp

/-- The Go function `reverse` leaves the slice reversed. -/
theorem reverse_eq (s : List String) : reverse s = s.reverse := by
  have h := reverseLoop_window s.length s [] [] (Nat.le_refl _)
  simpa [reverse] using h

/-! ## Facts about `ComposeStations` -/

theorem compactLength_reverse (stations : List String) :
    compactLength (reverse stations) = compactLength stations := by
  simp [compactLength, reverse_eq]

theorem leftDetailedHeader_length (line direction station : String) (num : Nat) :
    (leftDetailedHeader line direction station num).length = 20 := rfl

theorem rightDetailedHeader_length (stations : List String)
    (line direction station : String) (num : Nat) :
    (rightDetailedHeader stations line direction station num).length = 20 := rfl

theorem leftCompactHeader_length (stations : List String)
    (line direction station : String) (num : Nat) :
    ((leftCompactHeader stations line direction station num).length : Int)
      + compactLength stations = 22 := by
  unfold leftCompactHeader compactLength
  split_ifs <;> simp

theorem rightCompactHeader_length (stations : List String)
    (line direction station : String) (num : Nat) :
    ((rightCompactHeader stations line direction station num).length : Int)
      + compactLength stations = 22 := by
  unfold rightCompactHeader compactLength
  split_ifs <;> simp

/-- What a `<` block that calls `GenImage` has done. -/
theorem leftBlock_emit (stations center : List String) (line direction : String)
    (mirrored : Bool) (num : Nat) (station code : String) (e : Emitted)
    (h : leftBlock stations center line direction mirrored num station code = Step.emit e) :
    code.data.head? = some '<' ∧ e.station = station ∧ e.code = code ∧
    e.mirrored = mirrored ∧ e.rightward = false ∧
    e.length = (if code = "<2" then 20 else compactLength stations) ∧
    e.arranged = Arrange stations center station false e.length ("tc" ++ line) ∧
    e.filename = (if code = "<2" then "sh" else "dh") ++ station ++ direction ∧
    ∃ row2, rowOrNil e.arranged = some row2 ∧
      e.files = if code = "<2" then [leftDetailedHeader line direction station num, row2]
        else [leftCompactHeader stations line direction station num ++ row2] := by
  unfold leftBlock at h
  split at h
  · cases h
  · rename_i c cs hdata
    split_ifs at h with hc h2
    · split at h
      · cases h
      · rename_i row2 hrow
        cases h
        have hc2 : c = '<' := by simpa using hc
        simp [hdata, hc2, h2, hrow]
    · split at h
      · cases h
      · rename_i row2 hrow
        cases h
        have hc2 : c = '<' := by simpa using hc
        simp [hdata, hc2, h2, hrow]

/-- What a `>` block that calls `GenImage` has done. -/
theorem rightBlock_emit (stations center : List String) (line direction : String)
    (mirrored : Bool) (num : Nat) (station code : String) (e : Emitted)
    (h : rightBlock stations center line direction mirrored num station code = Step.emit e) :
    code.data.head? = some '>' ∧ e.station = station ∧ e.code = code ∧
    e.mirrored = mirrored ∧ e.rightward = true ∧
    e.length = (if code = ">2" then 20 else compactLength stations) ∧
    e.arranged = Arrange stations center station true e.length ("tc" ++ line) ∧
    e.filename = (if code = ">2" then "sh" else "dh") ++ station ++ direction ++ "#" ∧
    ∃ row2, rowOrNil e.arranged = some row2 ∧
      e.files = if code = ">2" then [rightDetailedHeader stations line direction station num, row2]
        else [row2 ++ rightCompactHeader stations line direction station num] := by
  unfold rightBlock at h
  split at h
  · cases h
  · rename_i c cs hdata
    split_ifs at h with hc h2
    · split at h
      · cases h
      · rename_i row2 hrow
        cases h
        have hc2 : c = '>' := by simpa using hc
        simp [hdata, hc2, h2, hrow]
    · split at h
      · cases h
      · rename_i row2 hrow
        cases h
        have hc2 : c = '>' := by simpa using hc
        simp [hdata, hc2, h2, hrow]

/-- Every call in the result of `runSteps` is made by one of the blocks. -/
theorem runSteps_mem (genImage : Nat → List (List String) → String → Bool) (e : Emitted) :
    ∀ (steps : List Step) (n : Nat),
      e ∈ (runSteps genImage n steps).calls → Step.emit e ∈ steps
  | [], n, h => by simp [runSteps] at h
  | Step.crash :: _, n, h => by simp [runSteps] at h
  | Step.skip :: rest, n, h => by
    have := runSteps_mem genImage e rest n (by simpa [runSteps] using h)
    simp [this]
  | Step.emit e2 :: rest, n, h => by
    unfold runSteps at h
    split_ifs at h
    · simp only [List.mem_cons] at h
      rcases h with h | h
      · simp [h]
      · have := runSteps_mem genImage e rest (n + 1) h
        simp [this]
    · simp only [List.mem_singleton] at h
      simp [h]

/-- When no block stops the program and every call of `GenImage` returns, the
run ends normally and every block that calls `GenImage` has its call in the
result. -/
theorem runSteps_complete (genImage : Nat → List (List String) → String → Bool)
    (hgen : ∀ n files filename, genImage n files filename = true) :
    ∀ (steps : List Step) (n : Nat), Step.crash ∉ steps →
      (runSteps genImage n steps).ending = Ending.completed ∧
      ∀ e, Step.emit e ∈ steps → e ∈ (runSteps genImage n steps).calls
  | [], n, _ => by simp [runSteps]
  | Step.crash :: _, n, h => by simp at h
  | Step.skip :: rest, n, h => by
    have ih := runSteps_complete genImage hgen rest n (fun hc => h (by simp [hc]))
    refine ⟨by simpa [runSteps] using ih.1, ?_⟩
    intro e he
    simp only [List.mem_cons, reduceCtorEq, false_or] at he
    simpa [runSteps] using ih.2 e he
  | Step.emit e2 :: rest, n, h => by
    have ih := runSteps_complete genImage hgen rest (n + 1) (fun hc => h (by simp [hc]))
    unfold runSteps
    rw [if_pos (hgen n e2.files e2.filename)]
    refine ⟨ih.1, ?_⟩
    intro e he
    simp only [List.mem_cons, Step.emit.injEq] at he
    rcases he with he | he
    · simp [he]
    · simp [ih.2 e he]

/-- A run-time stop of the run comes from a block that stops the program. -/
theorem runSteps_stopped (genImage : Nat → List (List String) → String → Bool) :
    ∀ (steps : List Step) (n : Nat),
      (runSteps genImage n steps).ending = Ending.stopped → Step.crash ∈ steps
  | [], n, h => by simp [runSteps] at h
  | Step.crash :: _, n, _ => by simp
  | Step.skip :: rest, n, h => by
    have := runSteps_stopped genImage rest n (by simpa [runSteps] using h)
    simp [this]
  | Step.emit e2 :: rest, n, h => by
    unfold runSteps at h
    split_ifs at h
    have := runSteps_stopped genImage rest (n + 1) h
    simp [this]

/-- Every block of a loop is a `<` block or a `>` block at some index, for the
station of that index and the code found there in the config row the block
reads. -/
theorem passSteps_mem (stations center cfgLeft cfgRight : List String)
    (line dirLeft dirRight : String) (mirrored : Bool) (e : Emitted) :
    ∀ (rest : List String) (num : Nat),
      Step.emit e ∈ passSteps stations center cfgLeft cfgRight line dirLeft dirRight
        mirrored num rest →
      ∃ (k : Nat) (station code : String),
        num ≤ k ∧ rest[k - num]? = some station ∧
        ((cfgLeft[k]? = some code ∧
          leftBlock stations center line dirLeft mirrored k station code = Step.emit e) ∨
        (cfgRight[k]? = some code ∧
          rightBlock stations center line dirRight mirrored k station code = Step.emit e))
  | [], _, h => by simp [passSteps] at h
  | station :: rest, num, h => by
    simp only [passSteps, List.mem_cons] at h
    rcases h with h | h | h
    · unfold blockAt at h
      split at h
      · cases h
      · rename_i code hcode
        exact ⟨num, station, code, Nat.le_refl _, by simp, Or.inl ⟨hcode, h.symm⟩⟩
    · unfold blockAt at h
      split at h
      · cases h
      · rename_i code hcode
        exact ⟨num, station, code, Nat.le_refl _, by simp, Or.inr ⟨hcode, h.symm⟩⟩
    · obtain ⟨k, st, code, hk, hst, hb⟩ :=
        passSteps_mem stations center cfgLeft cfgRight line dirLeft dirRight mirrored e
          rest (num + 1) h
      refine ⟨k, st, code, by omega, ?_, hb⟩
      have e1 : k - num = (k - (num + 1)) + 1 := by omega
      rw [e1, List.getElem?_cons_succ]
      exact hst

/-- Every call of `GenImage` made by `ComposeStations` is made by one of the
four blocks, at an index `k`, for the station and the config code of that
index: in the first loop `stations[k]` with `config[0][k]` (`<` block) or
`config[1][k]` (`>` block), in the second loop the same on the reversed
slices, with `config[1]` for the `<` block and `config[0]` for the `>` block. -/
theorem ComposeStations_mem_at (genImage : Nat → List (List String) → String → Bool)
    (stations center config0 config1 : List String) (e : Emitted)
    (h : e ∈ (ComposeStations genImage stations center config0 config1).calls) :
    ∃ (line : String) (k : Nat) (station code : String),
      lineOf stations = LineCut.text line ∧
      ((stations[k]? = some station ∧ config0[k]? = some code ∧
        leftBlock stations center line "+" false k station code = Step.emit e) ∨
       (stations[k]? = some station ∧ config1[k]? = some code ∧
        rightBlock stations center line "-" false k station code = Step.emit e) ∨
       ((reverse stations)[k]? = some station ∧ (reverse config1)[k]? = some code ∧
        leftBlock (reverse stations) (reverse center) line "-" true k station code
          = Step.emit e) ∨
       ((reverse stations)[k]? = some station ∧ (reverse config0)[k]? = some code ∧
        rightBlock (reverse stations) (reverse center) line "+" true k station code
          = Step.emit e)) := by
  unfold ComposeStations at h
  split at h
  · simp at h
  · simp at h
  · rename_i line hline
    have hm := runSteps_mem genImage e _ _ h
    unfold allSteps at hm
    rcases List.mem_append.mp hm with hm | hm
    · obtain ⟨k, station, code, _, hst, hk | hk⟩ := passSteps_mem _ _ _ _ _ _ _ _ e _ _ hm
      · exact ⟨line, k, station, code, hline, Or.inl ⟨hst, hk.1, hk.2⟩⟩
      · exact ⟨line, k, station, code, hline, Or.inr (Or.inl ⟨hst, hk.1, hk.2⟩)⟩
    · obtain ⟨k, station, code, _, hst, hk | hk⟩ := passSteps_mem _ _ _ _ _ _ _ _ e _ _ hm
      · exact ⟨line, k, station, code, hline, Or.inr (Or.inr (Or.inl ⟨hst, hk.1, hk.2⟩))⟩
      · exact ⟨line, k, station, code, hline, Or.inr (Or.inr (Or.inr ⟨hst, hk.1, hk.2⟩))⟩

/-- Every call of `GenImage` made by `ComposeStations` is made by one of the
four blocks: in the first loop on the given slices, in the second loop on the
reversed slices. -/
theorem ComposeStations_mem (genImage : Nat → List (List String) → String → Bool)
    (stations center config0 config1 : List String) (e : Emitted)
    (h : e ∈ (ComposeStations genImage stations center config0 config1).calls) :
    ∃ (line : String) (k : Nat) (station code : String),
      lineOf stations = LineCut.text line ∧
      (leftBlock stations center line "+" false k station code = Step.emit e ∨
       rightBlock stations center line "-" false k station code = Step.emit e ∨
       leftBlock (reverse stations) (reverse center) line "-" true k station code
         = Step.emit e ∨
       rightBlock (reverse stations) (reverse center) line "+" true k station code
         = Step.emit e) := by
  obtain ⟨line, k, station, code, hline, h | h | h | h⟩ :=
    ComposeStations_mem_at genImage stations center config0 config1 e h
  · exact ⟨line, k, station, code, hline, Or.inl h.2.2⟩
  · exact ⟨line, k, station, code, hline, Or.inr (Or.inl h.2.2)⟩
  · exact ⟨line, k, station, code, hline, Or.inr (Or.inr (Or.inl h.2.2))⟩
  · exact ⟨line, k, station, code, hline, Or.inr (Or.inr (Or.inr h.2.2))⟩

/-- The slice `s[:n]` at a boundary between characters. -/
theorem takeBytes_append :
    ∀ (a b : List Char), takeBytes (a ++ b) (byteLen a) = some a
  | [], b => by cases b <;> simp [takeBytes, byteLen]
  | c :: cs, b => by
    have hw : 0 < utf8Width c := by unfold utf8Width; split_ifs <;> omega
    have ih := takeBytes_append cs b
    obtain ⟨m, hm⟩ : ∃ m, utf8Width c + byteLen cs = m + 1 := ⟨utf8Width c + byteLen cs - 1, by omega⟩
    simp only [List.cons_append, byteLen, hm, takeBytes]
    rw [if_pos (by omega)]
    have : m + 1 - utf8Width c = byteLen cs := by omega
    rw [this, ih]
    rfl

theorem byteLen_append : ∀ (a b : List Char), byteLen (a ++ b) = byteLen a + byteLen b
  | [], b => by simp [byteLen]
  | c :: cs, b => by simp [byteLen, byteLen_append cs b, Nat.add_assoc]

/-- When the last three bytes of the first station id are whole characters,
`line` is the id without them; that is so for every id that ends in three
ASCII characters. -/
theorem lineOf_of_suffix (pre suf : String) (rest : List String)
    (h : byteLen suf.data = 3) :
    lineOf ((pre ++ suf) :: rest) = LineCut.text pre := by
  unfold lineOf
  simp only [String.data_append, byteLen_append, h]
  rw [if_neg (by omega), Nat.add_sub_cancel, takeBytes_append]

/-- Line 248 on ids with characters of more than one byte: `1+é` is four
bytes and loses `+é`; `é中` is five bytes and loses `中`; in `中é` the cut lies
inside `中`; `ab` is too short. -/
theorem lineOf_bytes :
    lineOf ["1+é"] = LineCut.text "1" ∧
    lineOf ["é中"] = LineCut.text "é" ∧
    lineOf ["中é"] = LineCut.notText ∧
    lineOf ["ab"] = LineCut.stop ∧
    lineOf ["1+06", "1+05"] = LineCut.text "1" := by
  decide

/-- The blocks of one loop all record the same value of `mirrored`. -/
theorem passSteps_mirrored (stations center cfgLeft cfgRight : List String)
    (line dirLeft dirRight : String) (mirrored : Bool) (e : Emitted)
    (rest : List String) (num : Nat)
    (h : Step.emit e ∈ passSteps stations center cfgLeft cfgRight line dirLeft dirRight
      mirrored num rest) : e.mirrored = mirrored := by
  obtain ⟨k, station, code, _, _, hk | hk⟩ := passSteps_mem _ _ _ _ _ _ _ _ e _ _ h
  · exact (leftBlock_emit _ _ _ _ _ _ _ _ _ hk.2).2.2.2.1
  · exact (rightBlock_emit _ _ _ _ _ _ _ _ _ hk.2).2.2.2.1

/-- The calls of a sequence of blocks followed by another: the calls of the
first, then calls made by blocks of the second. -/
theorem runSteps_append (genImage : Nat → List (List String) → String → Bool) :
    ∀ (a b : List Step) (n : Nat),
      ∃ c2, (runSteps genImage n (a ++ b)).calls = (runSteps genImage n a).calls ++ c2 ∧
        ∀ e ∈ c2, Step.emit e ∈ b
  | [], b, n => ⟨(runSteps genImage n b).calls, by simp [runSteps],
      fun e he => runSteps_mem genImage e b n he⟩
  | Step.crash :: _, b, n => ⟨[], by simp [runSteps], by simp⟩
  | Step.skip :: rest, b, n => by
    obtain ⟨c2, h1, h2⟩ := runSteps_append genImage rest b n
    exact ⟨c2, by simpa [runSteps] using h1, h2⟩
  | Step.emit e :: rest, b, n => by
    obtain ⟨c2, h1, h2⟩ := runSteps_append genImage rest b (n + 1)
    by_cases hg : genImage n e.files e.filename = true
    · exact ⟨c2, by simp [runSteps, hg, h1], h2⟩
    · exact ⟨[], by simp [runSteps, hg], by simp⟩

/-- The calls of the first loop come before the calls of the second. -/
theorem ComposeStations_order (genImage : Nat → List (List String) → String → Bool)
    (stations center config0 config1 : List String) :
    ∃ c1 c2, (ComposeStations genImage stations center config0 config1).calls = c1 ++ c2 ∧
      (∀ x ∈ c1, x.mirrored = false) ∧ (∀ x ∈ c2, x.mirrored = true) := by
  unfold ComposeStations
  split
  · exact ⟨[], [], rfl, by simp, by simp⟩
  · exact ⟨[], [], rfl, by simp, by simp⟩
  · rename_i line _
    unfold allSteps
    obtain ⟨c2, h1, h2⟩ := runSteps_append genImage
      (passSteps stations center config0 config1 line "+" "-" false 0 stations)
      (passSteps (reverse stations) (reverse center) (reverse config1) (reverse config0)
        line "-" "+" true 0 (reverse stations)) 0
    refine ⟨_, c2, h1, ?_, ?_⟩
    · intro x hx
      exact passSteps_mirrored _ _ _ _ _ _ _ _ x _ _ (runSteps_mem genImage x _ _ hx)
    · intro x hx
      exact passSteps_mirrored _ _ _ _ _ _ _ _ x _ _ (h2 x hx)

theorem leftBlock_skip_iff (stations center : List String) (line direction : String)
    (mirrored : Bool) (num : Nat) (station code : String) :
    leftBlock stations center line direction mirrored num station code = Step.skip ↔
      code ≠ "" ∧ code.data.head? ≠ some '<' := by
  unfold leftBlock
  split
  · rename_i hdata
    have : code = "" := String.ext hdata
    simp [this]
  · rename_i c cs hdata
    have hne : code ≠ "" := by
      intro h
      rw [h] at hdata
      cases hdata
    split_ifs with hc h2
    · simpa [hdata, hne] using hc
    · split <;> simp [hdata, hne] <;> simpa using hc
    · split <;> simp [hdata, hne] <;> simpa using hc

theorem rightBlock_skip_iff (stations center : List String) (line direction : String)
    (mirrored : Bool) (num : Nat) (station code : String) :
    rightBlock stations center line direction mirrored num station code = Step.skip ↔
      code ≠ "" ∧ code.data.head? ≠ some '>' := by
  unfold rightBlock
  split
  · rename_i hdata
    have : code = "" := String.ext hdata
    simp [this]
  · rename_i c cs hdata
    have hne : code ≠ "" := by
      intro h
      rw [h] at hdata
      cases hdata
    split_ifs with hc h2
    · simpa [hdata, hne] using hc
    · split <;> simp [hdata, hne] <;> simpa using hc
    · split <;> simp [hdata, hne] <;> simpa using hc

/-- A `<` block whose `Arrange` call returns an error still calls `GenImage`. -/
theorem leftBlock_of_error (stations center : List String) (line direction : String)
    (mirrored : Bool) (num : Nat) (station code : String) (err : ArrangeError)
    (hhead : code.data.head? = some '<')
    (harr : Arrange stations center station false
      (if code = "<2" then 20 else compactLength stations) ("tc" ++ line)
        = Outcome.error err) :
    ∃ e, leftBlock stations center line direction mirrored num station code = Step.emit e ∧
      e.arranged = Outcome.error err := by
  unfold leftBlock
  split
  · rename_i hdata
    simp [hdata] at hhead
  · rename_i c cs hdata
    have hc : c = '<' := by simpa [hdata] using hhead
    by_cases h2 : code = "<2"
    · rw [if_pos h2] at harr
      simp [hc, h2, harr, rowOrNil]
    · rw [if_neg h2] at harr
      simp [hc, h2, harr, rowOrNil]

/-- A `>` block whose `Arrange` call returns an error still calls `GenImage`. -/
theorem rightBlock_of_error (stations center : List String) (line direction : String)
    (mirrored : Bool) (num : Nat) (station code : String) (err : ArrangeError)
    (hhead : code.data.head? = some '>')
    (harr : Arrange stations center station true
      (if code = ">2" then 20 else compactLength stations) ("tc" ++ line)
        = Outcome.error err) :
    ∃ e, rightBlock stations center line direction mirrored num station code = Step.emit e ∧
      e.arranged = Outcome.error err := by
  unfold rightBlock
  split
  · rename_i hdata
    simp [hdata] at hhead
  · rename_i c cs hdata
    have hc : c = '>' := by simpa [hdata] using hhead
    by_cases h2 : code = ">2"
    · rw [if_pos h2] at harr
      simp [hc, h2, harr, rowOrNil]
    · rw [if_neg h2] at harr
      simp [hc, h2, harr, rowOrNil]

/-- The grid of a call whose `Arrange` call returned an error has the nil row
where the row of `Arrange` belongs. -/
theorem files_of_error (st : List String) (e : Emitted) (err : ArrangeError)
    (hdr20 hdr : List String) (row2 : List String) (c : Prop) [Decidable c]
    (h20 : hdr20.length = 20) (hh : (hdr.length : Int) + compactLength st = 22)
    (harr : e.arranged = Outcome.error err) (hrow : rowOrNil e.arranged = some row2)
    (hfiles : e.files = (if c then [hdr20, row2] else [hdr ++ row2]) ∨
      e.files = (if c then [hdr20, row2] else [row2 ++ hdr])) :
    ∃ h, (e.files = [h, []] ∧ h.length = 20) ∨
      (e.files = [h] ∧ (h.length : Int) + compactLength st = 22) := by
  rw [harr] at hrow
  simp only [rowOrNil, Option.some.injEq] at hrow
  subst hrow
  by_cases hc : c
  · refine ⟨hdr20, Or.inl ⟨?_, h20⟩⟩
    rcases hfiles with hf | hf <;> simpa [hc] using hf
  · refine ⟨hdr, Or.inr ⟨?_, hh⟩⟩
    rcases hfiles with hf | hf <;> simpa [hc] using hf

/-- A compact sign of a `<` block whose `Arrange` call returned a row. -/
theorem leftBlock_compact_row (stations center : List String) (line direction : String)
    (mirrored : Bool) (num : Nat) (station code : String) (e : Emitted)
    (h : leftBlock stations center line direction mirrored num station code = Step.emit e)
    (hcode : e.code ≠ "<2") (r : List String) (hr : e.arranged = Outcome.row r) :
    e.rightward = false ∧ (∃ rest, e.filename = "dh" ++ rest) ∧
    e.length = compactLength stations ∧ (r.length : Int) = compactLength stations ∧
    e.files = [leftCompactHeader stations line direction station num ++ r] := by
  obtain ⟨_, _, hc, _, hrw, hl, harr, hf, row2, hrow, hfiles⟩ :=
    leftBlock_emit _ _ _ _ _ _ _ _ _ h
  rw [hc] at hcode
  rw [if_neg hcode] at hl hfiles hf
  rw [hr] at hrow
  simp only [rowOrNil, Option.some.injEq] at hrow
  subst hrow
  rw [hr, hl] at harr
  refine ⟨hrw, ⟨_, by rw [hf]; exact String.append_assoc _ _ _⟩, hl, ?_, hfiles⟩
  exact Arrange_row_length _ _ _ _ _ _ _ harr.symm

/-- A compact sign of a `>` block whose `Arrange` call returned a row. -/
theorem rightBlock_compact_row (stations center : List String) (line direction : String)
    (mirrored : Bool) (num : Nat) (station code : String) (e : Emitted)
    (h : rightBlock stations center line direction mirrored num station code = Step.emit e)
    (hcode : e.code ≠ ">2") (r : List String) (hr : e.arranged = Outcome.row r) :
    e.rightward = true ∧ (∃ rest, e.filename = "dh" ++ rest) ∧
    e.length = compactLength stations ∧ (r.length : Int) = compactLength stations ∧
    e.files = [r ++ rightCompactHeader stations line direction station num] := by
  obtain ⟨_, _, hc, _, hrw, hl, harr, hf, row2, hrow, hfiles⟩ :=
    rightBlock_emit _ _ _ _ _ _ _ _ _ h
  rw [hc] at hcode
  rw [if_neg hcode] at hl hfiles hf
  rw [hr] at hrow
  simp only [rowOrNil, Option.some.injEq] at hrow
  subst hrow
  rw [hr, hl] at harr
  refine ⟨hrw, ⟨_, by rw [hf, String.append_assoc, String.append_assoc]⟩, hl, ?_, hfiles⟩
  exact Arrange_row_length _ _ _ _ _ _ _ harr.symm

/-- The header of a compact sign has 8 tiles for 14 stations or fewer, 7
otherwise. -/
theorem compact_header_count (stations hdr : List String)
    (h : (hdr.length : Int) + compactLength stations = 22) :
    compactLength stations = (if stations.length ≤ 14 then 14 else 15) ∧
    (hdr.length : Int) = (if stations.length ≤ 14 then 8 else 7) := by
  unfold compactLength at h ⊢
  split_ifs at h ⊢ <;> exact ⟨rfl, by omega⟩

/-! ## Facts about the search -/

theorem findSingle_lt (c0 : String) :
    ∀ (stations : List String) (p : Nat), findSingle stations c0 = some p →
      stations[p]? = some c0
  | [], p, h => by simp [findSingle] at h
  | v :: vs, p, h => by
    unfold findSingle at h
    split_ifs at h with hv
    · cases h
      simp [hv]
    · cases hq : findSingle vs c0 with
      | none => simp [hq] at h
      | some q =>
        simp only [hq, Option.map_some', Option.some.injEq] at h
        subst h
        simpa using findSingle_lt c0 vs q hq

theorem findPair_lt (c0 c1 : String) :
    ∀ (stations : List String) (p : Nat), findPair stations c0 c1 = some p →
      stations[p]? = some c0 ∧ stations[p + 1]? = some c1
  | [], p, h => by simp [findPair] at h
  | [a], p, h => by simp [findPair] at h
  | a :: b :: rest, p, h => by
    unfold findPair at h
    split_ifs at h with hv
    · cases h
      simp [hv.1, hv.2]
    · cases hq : findPair (b :: rest) c0 c1 with
      | none => simp [hq] at h
      | some q =>
        simp only [hq, Option.map_some', Option.some.injEq] at h
        subst h
        simpa using findPair_lt c0 c1 (b :: rest) q hq

/-- The start index produced by the search is an index of `stations`. -/
theorem search_ok_lt (stations center : List String) (length : Int) (p : Nat)
    (h0 : 0 ≤ length) (h : search stations center length = some (Except.ok p)) :
    p < stations.length := by
  unfold search at h
  have hm : length.tmod 2 = length % 2 := Int.tmod_eq_emod h0 (by decide)
  rcases Int.emod_two_eq length with he | he
  · have h1 : ¬ length.tmod 2 = 1 := by omega
    have h2 : length.tmod 2 = 0 := by omega
    rw [if_neg h1, if_pos h2] at h
    split at h
    · split at h
      · split at h
        · rename_i q hq
          simp only [Option.some.injEq, Except.ok.injEq] at h
          subst h
          exact (List.getElem?_eq_some_iff.mp (findPair_lt _ _ _ q hq).1).1
        · simp at h
      · cases h
    · simp at h
  · have h1 : length.tmod 2 = 1 := by omega
    rw [if_pos h1] at h
    split at h
    · cases h
    · split at h
      · rename_i q hq
        simp only [Option.some.injEq, Except.ok.injEq] at h
        subst h
        exact (List.getElem?_eq_some_iff.mp (findSingle_lt _ _ q hq)).1
      · simp at h

theorem findSingle_of_nodup (c0 : String) :
    ∀ (stations : List String) (p : Nat), stations.Nodup → stations[p]? = some c0 →
      findSingle stations c0 = some p
  | [], p, _, h => by simp at h
  | v :: vs, p, hnd, h => by
    obtain ⟨hv, hvs⟩ := List.nodup_cons.mp hnd
    unfold findSingle
    cases p with
    | zero =>
      have : v = c0 := by simpa using h
      rw [if_pos this]
    | succ k =>
      have hk : vs[k]? = some c0 := by simpa using h
      have hne : ¬ v = c0 := by
        intro e
        exact hv (e ▸ List.getElem?_mem hk)
      rw [if_neg hne, findSingle_of_nodup c0 vs k hvs hk]
      rfl

theorem findPair_of_nodup (c0 c1 : String) :
    ∀ (stations : List String) (p : Nat), stations.Nodup →
      stations[p]? = some c0 → stations[p + 1]? = some c1 →
      findPair stations c0 c1 = some p
  | [], p, _, h, _ => by simp at h
  | [a], p, _, _, h => by simp at h
  | a :: b :: rest, p, hnd, h0, h1 => by
    obtain ⟨ha, hrest⟩ := List.nodup_cons.mp hnd
    unfold findPair
    cases p with
    | zero =>
      have e0 : a = c0 := by simpa using h0
      have e1 : b = c1 := by simpa using h1
      rw [if_pos ⟨e0, e1⟩]
    | succ k =>
      have hk0 : (b :: rest)[k]? = some c0 := by simpa using h0
      have hk1 : (b :: rest)[k + 1]? = some c1 := by simpa using h1
      have hne : ¬ (a = c0 ∧ b = c1) := by
        rintro ⟨e, _⟩
        exact ha (e ▸ List.getElem?_mem hk0)
      rw [if_neg hne, findPair_of_nodup c0 c1 (b :: rest) k hrest hk0 hk1]
      rfl

theorem search_single_odd (stations : List String) (c0 : String) (cs : List String)
    (length : Int) (q : Nat) (hm : length.tmod 2 = 1)
    (h : findSingle stations c0 = some q) :
    search stations (c0 :: cs) length = some (Except.ok q) := by
  simp [search, hm, h]

theorem search_pair_even (stations : List String) (c0 c1 : String)
    (length : Int) (q : Nat) (hm : length.tmod 2 = 0)
    (h : findPair stations c0 c1 = some q) :
    search stations [c0, c1] length = some (Except.ok q) := by
  match stations, h with
  | a :: b :: rest, h => simp [search, hm, h]

theorem search_odd_inv (stations : List String) (c0 : String) (cs : List String)
    (length : Int) (p : Nat) (hm : length.tmod 2 = 1)
    (h : search stations (c0 :: cs) length = some (Except.ok p)) :
    findSingle stations c0 = some p := by
  unfold search at h
  rw [if_pos hm] at h
  dsimp only at h
  split at h
  · rename_i q hq
    simp only [Option.some.injEq, Except.ok.injEq] at h
    rw [hq, h]
  · simp at h

theorem search_even_inv (stations : List String) (c0 c1 : String)
    (length : Int) (p : Nat) (hm : length.tmod 2 = 0)
    (h : search stations [c0, c1] length = some (Except.ok p)) :
    findPair stations c0 c1 = some p := by
  unfold search at h
  rw [if_neg (by omega), if_pos hm] at h
  split at h
  · dsimp only at h
    split at h
    · rename_i q hq
      simp only [Option.some.injEq, Except.ok.injEq] at h
      rw [hq, h]
    · simp at h
  · simp at h

/-- The row `place` returns when the window lies inside the row. -/
theorem place_eq_row (stations center : List String) (current : String) (ltr : Bool)
    (length : Int) (blank : String) (p off : Nat) (h0 : 0 ≤ length)
    (hoff : centerStartWant center length - (p : Int) = (off : Int))
    (hfit : off + stations.length ≤ length.toNat) :
    place stations center current ltr length blank p
      = Outcome.row (List.replicate off blank ++ stationTokens stations current ltr ++
          List.replicate (length.toNat - off - stations.length) blank) := by
  unfold place
  rw [if_neg (by omega), writeCells_eq, if_pos, hoff]
  · simp only [Nat.cast_zero, add_zero, Int.toNat_ofNat, List.take_replicate,
      List.drop_replicate, stationTokens_length]
    rw [Nat.min_eq_left (by omega), Nat.sub_sub]
  · right
    rw [stationTokens_length, List.length_replicate, hoff]
    omega

/-- The cells of a row made of blanks, a window of tokens, and blanks. -/
theorem window_getElem? (blank : String) (toks : List String) (a c : Nat) :
    (∀ i, i < toks.length →
      (List.replicate a blank ++ toks ++ List.replicate c blank)[a + i]? = toks[i]?) ∧
    (∀ j, j < a + toks.length + c → (j < a ∨ a + toks.length ≤ j) →
      (List.replicate a blank ++ toks ++ List.replicate c blank)[j]? = some blank) := by
  constructor
  · intro i hi
    rw [List.append_assoc, List.getElem?_append_right (by simp),
      List.length_replicate, Nat.add_sub_cancel_left, List.getElem?_append_left hi]
  · intro j hj hout
    rcases hout with h | h
    · rw [List.append_assoc, List.getElem?_append_left (by simpa using h)]
      exact List.getElem?_replicate_of_lt h
    · rw [List.getElem?_append_right (by simp; omega)]
      exact List.getElem?_replicate_of_lt (by simp; omega)

/-- The token of station `i` is `"tc"`, the station id and a status token. -/
theorem stationTokens_getElem? (stations : List String) (current : String) (ltr : Bool)
    (i : Nat) (x : String) (h : stations[i]? = some x) :
    ∃ t, (stationTokens stations current ltr)[i]? = some ("tc" ++ x ++ t) := by
  have hi : i < stations.length := (List.getElem?_eq_some_iff.mp h).1
  refine ⟨statusToken stations.length (slicesIndex stations current) ltr i, ?_⟩
  unfold stationTokens
  rw [List.getElem?_zipWith, h, StationStatus_getElem? stations current ltr i hi]

/-- When the window does not lie inside the row, `place` stops the program. -/
theorem place_outOfRange_of_not_fit (stations center : List String) (current : String)
    (ltr : Bool) (length : Int) (blank : String) (p : Nat) (h0 : 0 ≤ length)
    (hne : stations ≠ [])
    (hfit : ¬ ((p : Int) ≤ centerStartWant center length ∧
      centerStartWant center length - (p : Int) + (stations.length : Int) ≤ length)) :
    place stations center current ltr length blank p = Outcome.outOfRange := by
  unfold place
  rw [if_neg (by omega), writeCells_eq, if_neg]
  rintro (h | h)
  · have := stationTokens_length stations current ltr
    rw [h] at this
    exact hne (List.eq_nil_of_length_eq_zero this.symm)
  · apply hfit
    rw [stationTokens_length, List.length_replicate] at h
    omega

/-! ## Facts about the mirrored placement -/

theorem centerStartWant_reverse (center : List String) (length : Int) :
    centerStartWant (reverse center) length = centerStartWant center length := by
  simp [centerStartWant, reverse_eq]

/-- Mirror placement, given the start indices `p` and `p2` the search yields
on the given and on the reversed slices and the relation between the two
offsets. -/
theorem Arrange_mirror_core (stations center : List String) (current current2 : String)
    (ltr ltr2 : Bool) (length : Int) (blank : String) (r : List String) (p p2 : Nat)
    (hrow : Arrange stations center current ltr length blank = Outcome.row r)
    (hs : search stations center length = some (Except.ok p))
    (hs2 : search (reverse stations) (reverse center) length = some (Except.ok p2))
    (hmir : centerStartWant center length - (p2 : Int)
      = length - (stations.length : Int) - (centerStartWant center length - (p : Int))) :
    ∃ (off : Nat) (r2 : List String),
      Arrange (reverse stations) (reverse center) current2 ltr2 length blank
        = Outcome.row r2 ∧
      off + stations.length ≤ length.toNat ∧
      r = List.replicate off blank ++ stationTokens stations current ltr ++
        List.replicate (length.toNat - off - stations.length) blank ∧
      r2 = List.replicate (length.toNat - off - stations.length) blank ++
        stationTokens (reverse stations) current2 ltr2 ++ List.replicate off blank ∧
      (∀ (i : Nat) (x : String), stations[i]? = some x →
        ∃ t t2, r[off + i]? = some ("tc" ++ x ++ t) ∧
          r2[length.toNat - 1 - (off + i)]? = some ("tc" ++ x ++ t2)) ∧
      (∀ j, j < length.toNat → (j < off ∨ off + stations.length ≤ j) →
        r[j]? = some blank ∧ r2[length.toNat - 1 - j]? = some blank) := by
  obtain ⟨hshape, hpar, hlen, p', hs', _⟩ :=
    Arrange_row_inv stations center current ltr length blank r hrow
  have h0 : 0 ≤ length := by omega
  have hp : p < stations.length := search_ok_lt stations center length p h0 hs
  have hne : stations ≠ [] := by
    intro h
    rw [h] at hp
    simp at hp
  have heq := Arrange_eq_place stations center current ltr length blank p hshape hpar hlen hs
  have hfit : (p : Int) ≤ centerStartWant center length ∧
      centerStartWant center length - (p : Int) + (stations.length : Int) ≤ length := by
    by_contra hfit
    rw [heq, place_outOfRange_of_not_fit stations center current ltr length blank p h0 hne
      hfit] at hrow
    cases hrow
  obtain ⟨hlo, hhi⟩ := hfit
  have hrl : (reverse stations).length = stations.length := by rw [reverse_eq]; simp
  have hcl : (reverse center).length = center.length := by rw [reverse_eq]; simp
  have hoff : centerStartWant center length - (p : Int)
      = (((centerStartWant center length - (p : Int)).toNat : Nat) : Int) := by omega
  generalize (centerStartWant center length - (p : Int)).toNat = off at hoff
  have hfitn : off + stations.length ≤ length.toNat := by omega
  have hr : r = List.replicate off blank ++ stationTokens stations current ltr ++
      List.replicate (length.toNat - off - stations.length) blank := by
    rw [heq, place_eq_row stations center current ltr length blank p off h0 hoff hfitn]
      at hrow
    cases hrow
    rfl
  have hoff2 : centerStartWant (reverse center) length - (p2 : Int)
      = ((length.toNat - off - stations.length : Nat) : Int) := by
    rw [centerStartWant_reverse]
    omega
  have heq2 := Arrange_eq_place (reverse stations) (reverse center) current2 ltr2 length blank
    p2 (by rw [hcl]; exact hshape) (by rw [hcl]; exact hpar) (by rw [hrl]; exact hlen) hs2
  have hr2 := place_eq_row (reverse stations) (reverse center) current2 ltr2 length blank p2
    (length.toNat - off - stations.length) h0 hoff2 (by rw [hrl]; omega)
  have hback : length.toNat - (length.toNat - off - stations.length)
      - (reverse stations).length = off := by rw [hrl]; omega
  rw [hback] at hr2
  refine ⟨off, _, heq2.trans hr2, hfitn, hr, rfl, ?_, ?_⟩
  · intro i x hx
    have hi : i < stations.length := (List.getElem?_eq_some_iff.mp hx).1
    obtain ⟨t, ht⟩ := stationTokens_getElem? stations current ltr i x hx
    have hx2 : (reverse stations)[stations.length - 1 - i]? = some x := by
      rw [reverse_eq, List.getElem?_reverse (by omega), ← hx]
      congr 1
      omega
    obtain ⟨t2, ht2⟩ := stationTokens_getElem? (reverse stations) current2 ltr2 _ x hx2
    refine ⟨t, t2, ?_, ?_⟩
    · rw [hr, (window_getElem? blank _ off _).1 i (by rw [stationTokens_length]; exact hi)]
      exact ht
    · have hidx : length.toNat - 1 - (off + i)
          = (length.toNat - off - stations.length) + (stations.length - 1 - i) := by omega
      rw [hidx, (window_getElem? blank _ _ off).1 _
        (by rw [stationTokens_length, hrl]; omega)]
      exact ht2
  · intro j hj hout
    constructor
    · rw [hr]
      exact (window_getElem? blank _ off _).2 j
        (by rw [stationTokens_length]; omega)
        (by rw [stationTokens_length]; exact hout)
    · exact (window_getElem? blank _ _ off).2 _
        (by rw [stationTokens_length, hrl]; omega)
        (by rw [stationTokens_length, hrl]; omega)

/-! ## Facts about `readSegment` -/

theorem fillRow_length (right row0 row1 : List String) (h : row0.length = row1.length) :
    (fillRow0 right row0).length = (fillRow1 right row1).length ∧
    (fillRow0 right row0).length ≤ row0.length + 1 ∧
    (right.length = 1 ∨ right.length = 2 → (fillRow0 right row0).length = row0.length + 1) ∧
    (3 ≤ right.length → (fillRow0 right row0).length = row0.length) := by
  match right with
  | [] => simp [fillRow0, fillRow1, h]
  | [a] => simp [fillRow0, fillRow1, h]
  | [a, b] => simp [fillRow0, fillRow1, h]
  | a :: b :: c :: rest => simp [fillRow0, fillRow1, h]

/-- The two config rows built by the loop of `readSegment` have the same
number of entries, and no more entries than there are stations. -/
theorem readLoop_rows :
    ∀ (lines : List String) (v : ReadVars),
      v.row0.length = v.row1.length → v.row0.length ≤ v.stations.length →
      (readLoop lines v).1.row0.length = (readLoop lines v).1.row1.length ∧
      (readLoop lines v).1.row0.length ≤ (readLoop lines v).1.stations.length
  | [], v, h1, h2 => by
    simp only [readLoop]
    exact ⟨h1, h2⟩
  | text :: rest, v, h1, h2 => by
    unfold readLoop
    split_ifs with hb hf
    · exact ⟨h1, h2⟩
    · split
      · exact readLoop_rows rest v h1 h2
      · exact readLoop_rows rest _ h1 h2
    · split
      · exact readLoop_rows rest v h1 h2
      · rename_i sep _
        have hl := fillRow_length
          ((splitComma (((trimSpace text.data).filter (fun c => c ≠ ' ')).drop
            (sep + 1))).map String.mk) v.row0 v.row1 h1
        refine readLoop_rows rest _ hl.1 ?_
        simp only [List.length_append, List.length_singleton]
        omega

/-- The loop of `readSegment` leaves no more lines than it was given, and
fewer when it has appended a station. -/
theorem readLoop_rest :
    ∀ (lines : List String) (v : ReadVars),
      (readLoop lines v).2.length ≤ lines.length ∧
      ((readLoop lines v).1.stations.length = v.stations.length ∨
        (readLoop lines v).2.length < lines.length)
  | [], v => by simp [readLoop]
  | text :: rest, v => by
    unfold readLoop
    split_ifs with hb hf
    · simp
    · split
      · exact ⟨Nat.le_succ_of_le (readLoop_rest rest _).1,
          (readLoop_rest rest _).2.imp id Nat.lt_succ_of_lt⟩
      · exact ⟨Nat.le_succ_of_le (readLoop_rest rest _).1,
          (readLoop_rest rest _).2.imp id Nat.lt_succ_of_lt⟩
    · split
      · exact ⟨Nat.le_succ_of_le (readLoop_rest rest _).1,
          (readLoop_rest rest _).2.imp id Nat.lt_succ_of_lt⟩
      · exact ⟨Nat.le_succ_of_le (readLoop_rest rest _).1,
          Or.inr (Nat.lt_succ_of_le (readLoop_rest rest _).1)⟩

/-- A call of `readSegment` that returns a segment has consumed a line. -/
theorem readSegment_rest (lines : List String) (seg : Segment) (rest : List String)
    (h : readSegment lines = (some seg, rest)) : rest.length < lines.length := by
  unfold readSegment at h
  have hr := readLoop_rest lines
    { stations := [], center := [], row0 := [], row1 := [], first := true }
  dsimp only at h
  split_ifs at h with h0
  · cases h
  · simp only [Prod.mk.injEq, Option.some.injEq] at h
    rw [← h.2]
    rcases hr.2 with hs | hs
    · exact absurd hs h0
    · exact hs

/-- The bound on the number of segments is enough: any larger bound gives the
same list of segments. -/
theorem readSegments_fuel :
    ∀ (n : Nat) (lines : List String) (f1 f2 : Nat),
      lines.length ≤ n → n < f1 → n < f2 →
      readSegments f1 lines = readSegments f2 lines
  | n, lines, 0, _, _, h1, _ => by omega
  | n, lines, _, 0, _, _, h2 => by omega
  | 0, lines, f1 + 1, f2 + 1, hl, _, _ => by
    have : lines = [] := List.eq_nil_of_length_eq_zero (by omega)
    subst this
    simp [readSegments, readSegment, readLoop]
  | n + 1, lines, f1 + 1, f2 + 1, hl, h1, h2 => by
    unfold readSegments
    cases hrs : readSegment lines with
    | mk o rest =>
      cases o with
      | none => rfl
      | some seg =>
        have hlt := readSegment_rest lines seg rest hrs
        simp only
        rw [readSegments_fuel n rest f1 f2 (by omega) (by omega) (by omega)]

/-- The result of `ReadStationsFile` does not depend on the bound. -/
theorem ReadStationsFile_fuel (lines : List String) (fuel : Nat)
    (h : lines.length < fuel) : readSegments fuel lines = ReadStationsFile lines :=
  readSegments_fuel lines.length lines fuel (lines.length + 1) (Nat.le_refl _) h
    (Nat.lt_succ_self _)

/-! ## Status Resolver -/

/-- C6: for a station list with at least two stations and an index `i` of it,
`StationStatus` returns as many tokens as there are stations and its `i`-th
token is the entry of the decision table: the origin row (`i = 0` ascending,
`i = last` descending), the terminus row (the opposite boundary) and the
interior row, each for "current" (`i` is `slices.Index(stations, current)`)
and "not current"; an interior station that is not current gets `""` when it
is ahead of the current index in the direction of travel and `"="` otherwise. -/
theorem StationStatus_decision_table (stations : List String) (current : String)
    (ltr : Bool) (i : Nat) (hn : 2 ≤ stations.length) (hi : i < stations.length) :
    (StationStatus stations current ltr).length = stations.length ∧
    ∃ t, (StationStatus stations current ltr)[i]? = some t ∧
      (((i = 0 ∧ ltr = true) ∨ (i = stations.length - 1 ∧ ltr = false)) →
        ((i : Int) = slicesIndex stations current → t = if ltr then "@#" else "@") ∧
        ((i : Int) ≠ slicesIndex stations current → t = if ltr then "#=" else "=")) ∧
      (((i = stations.length - 1 ∧ ltr = true) ∨ (i = 0 ∧ ltr = false)) →
        ((i : Int) = slicesIndex stations current → t = if ltr then "@#=" else "@=") ∧
        ((i : Int) ≠ slicesIndex stations current → t = if ltr then "#" else "")) ∧
      ((i ≠ 0 ∧ i ≠ stations.length - 1) →
        ((i : Int) = slicesIndex stations current → t = if ltr then "@=" else "@") ∧
        ((i : Int) ≠ slicesIndex stations current →
          t = if ((i : Int) < slicesIndex stations current ∧ ltr = false) ∨
                ((i : Int) > slicesIndex stations current ∧ ltr = true)
              then "" else "=")) := by
  refine ⟨StationStatus_length stations current ltr, _,
    StationStatus_getElem? stations current ltr i hi, ?_⟩
  generalize slicesIndex stations current = c
  generalize stations.length = n at hn hi
  have hcast : ((n - 1 : Nat) : Int) = (n : Int) - 1 := by omega
  unfold statusToken
  cases ltr <;>
    simp only [Bool.false_eq_true, and_false, and_true, or_false, false_or, if_false,
      if_true, ne_eq, reduceCtorEq] <;>
    refine ⟨?_, ?_, ?_⟩ <;> intro h <;> constructor <;> intro hc <;>
    split_ifs <;> first | rfl | (exfalso; omega)

/-- C6 at `stations = ["A","B","C"]`, `current = "B"`, ascending, `i = 1`. -/
theorem StationStatus_decision_table_witness :
    (StationStatus ["A", "B", "C"] "B" true).length = ["A", "B", "C"].length ∧
    ∃ t, (StationStatus ["A", "B", "C"] "B" true)[1]? = some t ∧
      (((1 = 0 ∧ true = true) ∨ (1 = ["A", "B", "C"].length - 1 ∧ true = false)) →
        (((1 : Nat) : Int) = slicesIndex ["A", "B", "C"] "B" → t = if true then "@#" else "@") ∧
        (((1 : Nat) : Int) ≠ slicesIndex ["A", "B", "C"] "B" → t = if true then "#=" else "=")) ∧
      (((1 = ["A", "B", "C"].length - 1 ∧ true = true) ∨ (1 = 0 ∧ true = false)) →
        (((1 : Nat) : Int) = slicesIndex ["A", "B", "C"] "B" → t = if true then "@#=" else "@=") ∧
        (((1 : Nat) : Int) ≠ slicesIndex ["A", "B", "C"] "B" → t = if true then "#" else "")) ∧
      ((1 ≠ 0 ∧ 1 ≠ ["A", "B", "C"].length - 1) →
        (((1 : Nat) : Int) = slicesIndex ["A", "B", "C"] "B" → t = if true then "@=" else "@") ∧
        (((1 : Nat) : Int) ≠ slicesIndex ["A", "B", "C"] "B" →
          t = if (((1 : Nat) : Int) < slicesIndex ["A", "B", "C"] "B" ∧ true = false) ∨
                (((1 : Nat) : Int) > slicesIndex ["A", "B", "C"] "B" ∧ true = true)
              then "" else "=")) :=
  StationStatus_decision_table ["A", "B", "C"] "B" true 1 (by decide) (by decide)

/-- C7: when `current` occurs in `stations` (duplicates allowed), exactly one
token returned by `StationStatus` begins with `@`, and it stands at an index
that holds `current`; when `current` does not occur in `stations`, no token
begins with `@`. Both directions. -/
theorem StationStatus_current_marker (stations : List String) (current : String)
    (ltr : Bool) :
    (current ∈ stations →
      ∃ i : Nat, stations[i]? = some current ∧
        (∃ t, (StationStatus stations current ltr)[i]? = some t ∧ beginsWithAt t = true) ∧
        ∀ (j : Nat) (t : String), (StationStatus stations current ltr)[j]? = some t →
          (beginsWithAt t = true ↔ j = i)) ∧
    (current ∉ stations →
      ∀ t ∈ StationStatus stations current ltr, beginsWithAt t = false) := by
  have key : ∀ (j : Nat) (t : String), (StationStatus stations current ltr)[j]? = some t →
      (beginsWithAt t = true ↔ (j : Int) = slicesIndex stations current) := by
    intro j t hj
    have hlt : j < stations.length := by
      have := (List.getElem?_eq_some_iff.mp hj).1
      simpa [StationStatus_length] using this
    rw [StationStatus_getElem? stations current ltr j hlt] at hj
    cases hj
    exact beginsWithAt_statusToken _ _ _ _
  constructor
  · intro hmem
    obtain ⟨k, hk, hget, _⟩ := slicesIndex_present current stations hmem
    have hlt : k < stations.length := (List.getElem?_eq_some_iff.mp hget).1
    refine ⟨k, hget, ⟨_, StationStatus_getElem? stations current ltr k hlt, ?_⟩, ?_⟩
    · exact (beginsWithAt_statusToken _ _ _ _).mpr hk.symm
    · intro j t hj
      rw [key j t hj, hk]
      omega
  · intro hmem t ht
    obtain ⟨j, hj⟩ := List.getElem?_of_mem ht
    have h := key j t hj
    rw [slicesIndex_absent current stations hmem] at h
    cases hb : beginsWithAt t
    · rfl
    · have := h.mp hb
      omega

/-- C7 at `stations = ["A","B","A"]` (a duplicate id), `current = "A"`,
descending, and at a `current` that is not a station. -/
theorem StationStatus_current_marker_witness :
    ("A" ∈ ["A", "B", "A"] ∧
      ∃ i : Nat, ["A", "B", "A"][i]? = some "A" ∧
        (∃ t, (StationStatus ["A", "B", "A"] "A" false)[i]? = some t ∧
          beginsWithAt t = true) ∧
        ∀ (j : Nat) (t : String), (StationStatus ["A", "B", "A"] "A" false)[j]? = some t →
          (beginsWithAt t = true ↔ j = i)) ∧
    ("Z" ∉ ["A", "B", "A"] ∧
      ∀ t ∈ StationStatus ["A", "B", "A"] "Z" false, beginsWithAt t = false) :=
  ⟨⟨by decide, (StationStatus_current_marker ["A", "B", "A"] "A" false).1 (by decide)⟩,
   ⟨by decide, (StationStatus_current_marker ["A", "B", "A"] "Z" false).2 (by decide)⟩⟩

/-! ## Row Arranger: placement -/

/-- C1, as amended: under the four documented preconditions of `Arrange`
(the anchor has one or two elements; `length` is odd for a 1-element anchor;
`len(stations) <= length`; the anchor is locatable in `stations`) the search
produces a start index `p`, and when moreover `p <= target` and
`target - p + len(stations) <= length` (with
`target = centerStartWant center length`) every store index `offset + i`,
`offset = target - p`, satisfies `0 <= offset + i < length` and `Arrange`
returns a row. -/
theorem Arrange_in_range_of_fit (stations center : List String) (current : String)
    (ltr : Bool) (length : Int) (blank : String)
    (hshape : center.length = 1 ∨ center.length = 2)
    (hpar : center.length = 1 → Odd length)
    (hlen : (stations.length : Int) ≤ length)
    (hloc : Locatable stations center) :
    ∃ p : Nat, search stations center length = some (Except.ok p) ∧
      ((p : Int) ≤ centerStartWant center length ∧
        centerStartWant center length - (p : Int) + (stations.length : Int) ≤ length →
        (∀ i : Nat, i < stations.length →
          0 ≤ centerStartWant center length - (p : Int) + (i : Int) ∧
          centerStartWant center length - (p : Int) + (i : Int) < length) ∧
        ∃ r, Arrange stations center current ltr length blank = Outcome.row r) := by
  have h0 : 0 ≤ length := by omega
  obtain ⟨p, hp⟩ := search_of_locatable stations center length hpar h0 hloc
  refine ⟨p, hp, ?_⟩
  rintro ⟨hlo, hhi⟩
  refine ⟨fun i hi => ⟨by omega, by omega⟩, ?_⟩
  have hpar2 : ¬ (center.length = 1 ∧ length.tmod 2 = 0) := by
    rintro ⟨hc, hm⟩
    have := tmod_two_of_odd length h0 (hpar hc)
    omega
  rw [Arrange_eq_place stations center current ltr length blank p hshape hpar2 hlen hp]
  exact place_row_of_fit stations center current ltr length blank p h0 hlo hhi

/-- C1, as amended, at `stations = ["A","B","C"]`, anchor `["B"]`,
`length = 5`. -/
theorem Arrange_in_range_of_fit_witness :
    ∃ p : Nat, search ["A", "B", "C"] ["B"] 5 = some (Except.ok p) ∧
      ((p : Int) ≤ centerStartWant ["B"] 5 ∧
        centerStartWant ["B"] 5 - (p : Int) + ((["A", "B", "C"].length : Nat) : Int) ≤ 5 →
        (∀ i : Nat, i < ["A", "B", "C"].length →
          0 ≤ centerStartWant ["B"] 5 - (p : Int) + (i : Int) ∧
          centerStartWant ["B"] 5 - (p : Int) + (i : Int) < 5) ∧
        ∃ r, Arrange ["A", "B", "C"] ["B"] "B" true 5 "_" = Outcome.row r) :=
  Arrange_in_range_of_fit ["A", "B", "C"] ["B"] "B" true 5 "_"
    (by decide) (fun _ => by decide) (by decide) ⟨1, by decide⟩

/-- C1 fails as stated: `stations = ["A","B","C"]`, anchor `["A"]`,
`length = 3` meet the four documented preconditions, the search gives
`p = 0`, the store index for `i = 2` is `3/2 - 0 + 2 = 3`, outside the row, and
`Arrange` stops with an index out of range instead of returning a row. -/
theorem Arrange_in_range_counterexample :
    (["A"].length = 1 ∨ ["A"].length = 2) ∧
    Odd (3 : Int) ∧
    ((["A", "B", "C"].length : Int) ≤ 3) ∧
    Locatable ["A", "B", "C"] ["A"] ∧
    search ["A", "B", "C"] ["A"] 3 = some (Except.ok 0) ∧
    ¬ (centerStartWant ["A"] 3 - 0 + 2 < 3) ∧
    Arrange ["A", "B", "C"] ["A"] "A" true 3 "_" = Outcome.outOfRange :=
  ⟨by decide, by decide, by decide, ⟨0, by decide⟩, rfl, by decide, by decide⟩

/-- C2, the code at `stations = ["A","B","D","C"]`, anchor `["B","C"]`: with
the even `length = 4` the pair search runs and `Arrange` returns the
anchor-not-found error; with the odd `length = 5` the search of lines 174-182
looks for `"B"` alone, finds it at index 1, and `Arrange` returns a row,
although no two neighbouring stations are `"B"`, `"C"`. -/
theorem Arrange_pair_not_adjacent_eval :
    findPair ["A", "B", "D", "C"] "B" "C" = none ∧
    Arrange ["A", "B", "D", "C"] ["B", "C"] "A" true 4 "_"
      = Outcome.error ArrangeError.pairNotFound ∧
    Arrange ["A", "B", "D", "C"] ["B", "C"] "A" true 5 "_"
      = Outcome.row ["tcA@#", "tcB", "tcD", "tcC#", "_"] := by
  decide

/-- C3, as amended: whenever `Arrange` returns a row, the row has exactly
`length` cells, and the number of its cells that differ from `blank` is the
number of station tokens `"tc" + stations[i] + status[i]` that differ from
`blank`; it is `len(stations)` when no station token equals `blank`. -/
theorem Arrange_row_shape (stations center : List String) (current : String)
    (ltr : Bool) (length : Int) (blank : String) (r : List String)
    (h : Arrange stations center current ltr length blank = Outcome.row r) :
    (r.length : Int) = length ∧
    nonBlankCount blank r = nonBlankCount blank (stationTokens stations current ltr) ∧
    ((∀ t ∈ stationTokens stations current ltr, t ≠ blank) →
      nonBlankCount blank r = stations.length) := by
  obtain ⟨_, _, hlen, p, _, hw⟩ := Arrange_row_inv stations center current ltr length blank r h
  obtain ⟨hl, _, hr⟩ := writeCells_some _ _ _ _ _ hw
  have hcount : nonBlankCount blank r
      = nonBlankCount blank (stationTokens stations current ltr) := by
    have hblank : ∀ l : List String, (∀ c ∈ l, c = blank) →
        l.filter (fun c => decide (c ≠ blank)) = [] := by
      intro l hall
      rw [List.filter_eq_nil_iff]
      intro c hc
      simp [hall c hc]
    have htake : ∀ k, ∀ c ∈ (List.replicate length.toNat blank).take k, c = blank :=
      fun k c hc => List.eq_of_mem_replicate (List.mem_of_mem_take hc)
    have hdrop : ∀ k, ∀ c ∈ (List.replicate length.toNat blank).drop k, c = blank :=
      fun k c hc => List.eq_of_mem_replicate (List.mem_of_mem_drop hc)
    rw [hr]
    unfold nonBlankCount
    rw [List.filter_append, List.filter_append, hblank _ (htake _), hblank _ (hdrop _)]
    simp
  refine ⟨?_, hcount, ?_⟩
  · rw [hl, List.length_replicate]
    omega
  · intro hall
    rw [hcount]
    unfold nonBlankCount
    rw [List.filter_eq_self.mpr (fun t ht => by simpa using hall t ht)]
    exact stationTokens_length stations current ltr

/-- C3, as amended, at the row of the specification's boundary case. -/
theorem Arrange_row_shape_witness :
    Arrange ["A", "B", "C"] ["B"] "B" true 5 "_"
      = Outcome.row ["_", "tcA#=", "tcB@=", "tcC#", "_"] ∧
    ((["_", "tcA#=", "tcB@=", "tcC#", "_"].length : Int) = 5 ∧
    nonBlankCount "_" ["_", "tcA#=", "tcB@=", "tcC#", "_"]
      = nonBlankCount "_" (stationTokens ["A", "B", "C"] "B" true) ∧
    ((∀ t ∈ stationTokens ["A", "B", "C"] "B" true, t ≠ "_") →
      nonBlankCount "_" ["_", "tcA#=", "tcB@=", "tcC#", "_"] = ["A", "B", "C"].length)) :=
  ⟨by decide, Arrange_row_shape ["A", "B", "C"] ["B"] "B" true 5 "_" _ (by decide)⟩

/-- C3 fails as stated: with `blank = "tcA@"`, the token of the only station,
`Arrange` returns a one-cell row in which no cell differs from `blank`, while
`len(stations) = 1`. -/
theorem Arrange_row_shape_counterexample :
    Arrange ["A"] ["A"] "A" false 1 "tcA@" = Outcome.row ["tcA@"] ∧
    nonBlankCount "tcA@" ["tcA@"] = 0 ∧
    ["A"].length = 1 := by
  decide

/-- C4, the code at `stations = ["B","D"]`, anchor `["B","C"]`, `length = 3`:
`Arrange` returns a row whose cell `length/2 = 1` is the token of station
`"D"`, not a token of the second anchor element `"C"`. -/
theorem Arrange_midpoint_eval :
    Arrange ["B", "D"] ["B", "C"] "B" false 3 "_"
      = Outcome.row ["tcB@=", "tcD=", "_"] ∧
    (3 : Int).tdiv 2 = 1 ∧
    ∀ t ∈ statusTokens, ["tcB@=", "tcD=", "_"][1]? ≠ some ("tc" ++ "C" ++ t) := by
  decide

/-- C5, the code at `stations = ["B","X","B","C"]`, anchor `["B","C"]`,
`length = 5`, `blank = "_"`: the first `p` with `stations[p] = "B"` and
`stations[p+1] = "C"` is 2, which puts station `i` in cell `5/2 - 1 - 2 + i`,
so `"X"` in cell 0; the search of lines 174-182 yields `p = 0` instead, and the
returned row has the stations in cells 1 to 4 and `blank` in cell 0. -/
theorem Arrange_placement_eval :
    findPair ["B", "X", "B", "C"] "B" "C" = some 2 ∧
    search ["B", "X", "B", "C"] ["B", "C"] 5 = some (Except.ok 0) ∧
    Arrange ["B", "X", "B", "C"] ["B", "C"] "B" true 5 "_"
      = Outcome.row ["_", "tcB@#", "tcX", "tcB", "tcC#"] :=
  ⟨by decide, rfl, by decide⟩

/-- The boundary case of the specification: `stations = ["A","B","C"]`,
anchor `["B"]`, `current = "B"`, ascending, `length = 5`, `blank = "_"`. -/
theorem Arrange_boundary_case :
    Arrange ["A", "B", "C"] ["B"] "B" true 5 "_"
      = Outcome.row ["_", "tcA#=", "tcB@=", "tcC#", "_"] := by
  decide

/-! ## Row Arranger: validation errors -/

/-- C8: with a 1-element anchor and an even `length`, `Arrange` returns the
parity error and no row, whatever the stations, the current station, the
direction and the blank are (the anchor may be absent from `stations`, and
`stations` may be longer than `length`). -/
theorem Arrange_parity_error (stations : List String) (a current : String) (ltr : Bool)
    (length : Int) (blank : String) (heven : Even length) :
    Arrange stations [a] current ltr length blank = Outcome.error ArrangeError.parity := by
  simp [Arrange, tmod_two_of_even length heven]

/-- C8 at anchor `["X"]`, `length = 10`, with the anchor absent from a station
list longer than `length`. -/
theorem Arrange_parity_error_witness :
    Even (10 : Int) ∧
    Arrange ["a", "b", "c", "d", "e", "f", "g", "h", "i", "j", "k"] ["X"] "a" true 10 ""
      = Outcome.error ArrangeError.parity :=
  ⟨by decide, Arrange_parity_error _ "X" "a" true 10 "" (by decide)⟩

/-- C9: an anchor whose number of elements is neither 1 nor 2 (the empty
anchor, three elements or more) makes `Arrange` return the anchor-shape error
and no row, for every other argument. -/
theorem Arrange_shape_error (stations center : List String) (current : String)
    (ltr : Bool) (length : Int) (blank : String)
    (h1 : center.length ≠ 1) (h2 : center.length ≠ 2) :
    Arrange stations center current ltr length blank
      = Outcome.error ArrangeError.shape := by
  simp [Arrange, h1, h2]

/-- C9 at the empty anchor and at a 3-element anchor. -/
theorem Arrange_shape_error_witness :
    Arrange ["A", "B", "C"] [] "A" true 5 "_" = Outcome.error ArrangeError.shape ∧
    Arrange ["A", "B", "C"] ["A", "B", "C"] "A" false 4 "_"
      = Outcome.error ArrangeError.shape :=
  ⟨Arrange_shape_error ["A", "B", "C"] [] "A" true 5 "_" (by decide) (by decide),
   Arrange_shape_error ["A", "B", "C"] ["A", "B", "C"] "A" false 4 "_"
     (by decide) (by decide)⟩

/-- C10: when `stations` has more elements than `length`, `Arrange` returns an
error and no row; when moreover the anchor has one element and `length` is not
even, or the anchor has two elements, the error is the length error, whether
or not the anchor occurs in `stations` (the check of line 168 comes before the
search of lines 172-191). -/
theorem Arrange_length_error (stations center : List String) (current : String)
    (ltr : Bool) (length : Int) (blank : String)
    (hlong : (stations.length : Int) > length) :
    (∃ e, Arrange stations center current ltr length blank = Outcome.error e) ∧
    ((center.length = 1 ∧ ¬ Even length) ∨ center.length = 2 →
      Arrange stations center current ltr length blank
        = Outcome.error ArrangeError.tooLong) := by
  have main : (center.length = 1 ∧ ¬ Even length) ∨ center.length = 2 →
      Arrange stations center current ltr length blank
        = Outcome.error ArrangeError.tooLong := by
    intro h
    have hp : ¬ (center.length = 1 ∧ length.tmod 2 = 0) := by
      rintro ⟨hc, hm⟩
      rcases h with ⟨_, hne⟩ | h2
      · exact tmod_two_of_not_even length hne hm
      · omega
    have hs : ¬ (center.length ≠ 1 ∧ center.length ≠ 2) := by
      rintro ⟨ha, hb⟩
      rcases h with ⟨h1, _⟩ | h2
      · exact ha h1
      · exact hb h2
    unfold Arrange
    rw [if_neg hp, if_neg hs, if_pos hlong]
  refine ⟨?_, main⟩
  by_cases hp : center.length = 1 ∧ length.tmod 2 = 0
  · exact ⟨ArrangeError.parity, by unfold Arrange; rw [if_pos hp]⟩
  · by_cases hs : center.length ≠ 1 ∧ center.length ≠ 2
    · exact ⟨ArrangeError.shape, by unfold Arrange; rw [if_neg hp, if_pos hs]⟩
    · exact ⟨ArrangeError.tooLong, by
        unfold Arrange; rw [if_neg hp, if_neg hs, if_pos hlong]⟩

/-- C10 at four stations, `length = 3`, a 1-element anchor that is not a
station. -/
theorem Arrange_length_error_witness :
    ((["A", "B", "C", "D"].length : Int) > 3) ∧
    (∃ e, Arrange ["A", "B", "C", "D"] ["Z"] "A" true 3 "_" = Outcome.error e) ∧
    (((["Z"].length = 1 ∧ ¬ Even (3 : Int)) ∨ ["Z"].length = 2) →
      Arrange ["A", "B", "C", "D"] ["Z"] "A" true 3 "_"
        = Outcome.error ArrangeError.tooLong) :=
  ⟨by decide, Arrange_length_error ["A", "B", "C", "D"] ["Z"] "A" true 3 "_" (by decide)⟩

/-! ## Mirrored pass -/

/-- C11: when a 2-element anchor occurs in the station list as two
neighbouring stations in order, `reverse` turns the anchor into the swapped
pair, the swapped pair occurs as two neighbouring stations in order in the
reversed station list, the pair search of `Arrange` finds it there, and
`Arrange` on the reversed inputs returns neither anchor-not-found error,
whatever `current`, the direction, `length` and `blank` are. -/
theorem reverse_keeps_anchor_adjacent (stations : List String) (c0 c1 : String) (p : Nat)
    (h0 : stations[p]? = some c0) (h1 : stations[p + 1]? = some c1) :
    reverse [c0, c1] = [c1, c0] ∧
    Locatable (reverse stations) (reverse [c0, c1]) ∧
    (∃ q, findPair (reverse stations) c1 c0 = some q) ∧
    ∀ (current : String) (ltr : Bool) (length : Int) (blank : String),
      Arrange (reverse stations) (reverse [c0, c1]) current ltr length blank
        ≠ Outcome.error ArrangeError.pairNotFound ∧
      Arrange (reverse stations) (reverse [c0, c1]) current ltr length blank
        ≠ Outcome.error ArrangeError.singleNotFound := by
  have hlen : p + 1 < stations.length := (List.getElem?_eq_some_iff.mp h1).1
  have hc : reverse [c0, c1] = [c1, c0] := by rw [reverse_eq]; rfl
  have hq0 : (reverse stations)[stations.length - 2 - p]? = some c1 := by
    rw [reverse_eq, List.getElem?_reverse (by omega), ← h1]
    congr 1
    omega
  have hq1 : (reverse stations)[stations.length - 2 - p + 1]? = some c0 := by
    rw [reverse_eq, List.getElem?_reverse (by omega), ← h0]
    congr 1
    omega
  have hloc : Locatable (reverse stations) [c1, c0] := ⟨_, hq0, hq1⟩
  refine ⟨hc, by rw [hc]; exact hloc, findPair_of_getElem? c1 c0 _ _ hq0 hq1, ?_⟩
  intro current ltr length blank
  rw [hc]
  by_cases hl : ((reverse stations).length : Int) > length
  · have := (Arrange_length_too_long (reverse stations) [c1, c0] current ltr length blank
      (Or.inr rfl) (by simp) hl)
    rw [this]
    exact ⟨by simp, by simp⟩
  · have h0l : 0 ≤ length := by omega
    obtain ⟨q, hq⟩ := search_of_locatable (reverse stations) [c1, c0] length
      (by simp) h0l hloc
    rw [Arrange_eq_place (reverse stations) [c1, c0] current ltr length blank q
      (Or.inr rfl) (by simp) (by omega) hq]
    exact ⟨place_ne_error _ _ _ _ _ _ _ _, place_ne_error _ _ _ _ _ _ _ _⟩

/-- C11 at `stations = ["S1","S2","S3"]`, anchor `["S2","S3"]`. -/
theorem reverse_keeps_anchor_adjacent_witness :
    reverse ["S1", "S2", "S3"] = ["S3", "S2", "S1"] ∧
    (reverse ["S2", "S3"] = ["S3", "S2"] ∧
    Locatable (reverse ["S1", "S2", "S3"]) (reverse ["S2", "S3"]) ∧
    (∃ q, findPair (reverse ["S1", "S2", "S3"]) "S3" "S2" = some q) ∧
    ∀ (current : String) (ltr : Bool) (length : Int) (blank : String),
      Arrange (reverse ["S1", "S2", "S3"]) (reverse ["S2", "S3"]) current ltr length blank
        ≠ Outcome.error ArrangeError.pairNotFound ∧
      Arrange (reverse ["S1", "S2", "S3"]) (reverse ["S2", "S3"]) current ltr length blank
        ≠ Outcome.error ArrangeError.singleNotFound) :=
  ⟨by decide, reverse_keeps_anchor_adjacent ["S1", "S2", "S3"] "S2" "S3" 1
    (by decide) (by decide)⟩

/-! ## Sign Composer -/

/-- C14, as amended: every sign emitted by `ComposeStations` has an output
name made of the prefix (`sh` for the code `<2` or `>2`, `dh` otherwise), the
id of the station of the loop iteration and the direction suffix, followed by
`#` if and only if the sign is generated by a `>` block (the block that
passes `ltr = true`), in either loop. First loop, index `k`: a code
`config[0][k]` that begins with `<` gives prefix + `stations[k]` + `+`, a code
`config[1][k]` that begins with `>` gives prefix + `stations[k]` + `-#`. Second
loop, on the reversed slices: a code of `config[1]` that begins with `<` gives
prefix + id + `-`, a code of `config[0]` that begins with `>` gives
prefix + id + `+#`. The calls of the first loop come before those of the
second. -/
theorem ComposeStations_filename (genImage : Nat → List (List String) → String → Bool)
    (stations center config0 config1 : List String)
    (e : Emitted) (he : e ∈ (ComposeStations genImage stations center config0 config1).calls) :
    (∃ (k : Nat) (station code : String), e.station = station ∧ e.code = code ∧
      ((e.mirrored = false ∧ e.rightward = false ∧
        stations[k]? = some station ∧ config0[k]? = some code ∧
        code.data.head? = some '<' ∧
        e.filename = (if code = "<2" then "sh" else "dh") ++ station ++ "+") ∨
       (e.mirrored = false ∧ e.rightward = true ∧
        stations[k]? = some station ∧ config1[k]? = some code ∧
        code.data.head? = some '>' ∧
        e.filename = (if code = ">2" then "sh" else "dh") ++ station ++ "-" ++ "#") ∨
       (e.mirrored = true ∧ e.rightward = false ∧
        (reverse stations)[k]? = some station ∧ (reverse config1)[k]? = some code ∧
        code.data.head? = some '<' ∧
        e.filename = (if code = "<2" then "sh" else "dh") ++ station ++ "-") ∨
       (e.mirrored = true ∧ e.rightward = true ∧
        (reverse stations)[k]? = some station ∧ (reverse config0)[k]? = some code ∧
        code.data.head? = some '>' ∧
        e.filename = (if code = ">2" then "sh" else "dh") ++ station ++ "+" ++ "#"))) ∧
    (∃ pre, (pre = "sh" ∨ pre = "dh") ∧
      e.filename = pre ++ e.station ++
        (if e.mirrored = e.rightward then "+" else "-") ++
        (if e.rightward = true then "#" else "")) ∧
    (e.filename.data.getLast? = some '#' ↔ e.rightward = true) ∧
    (∃ c1 c2, (ComposeStations genImage stations center config0 config1).calls = c1 ++ c2 ∧
      (∀ x ∈ c1, x.mirrored = false) ∧ (∀ x ∈ c2, x.mirrored = true)) := by
  obtain ⟨line, k, station, code, _, h | h | h | h⟩ :=
    ComposeStations_mem_at genImage stations center config0 config1 e he
  · obtain ⟨hst, hcf, hb⟩ := h
    obtain ⟨hh, hs, hc, hm, hr, _, _, hf, _⟩ := leftBlock_emit _ _ _ _ _ _ _ _ _ hb
    refine ⟨⟨k, station, code, hs, hc, Or.inl ⟨hm, hr, hst, hcf, hh, hf⟩⟩,
      ⟨if code = "<2" then "sh" else "dh", by split_ifs <;> simp, ?_⟩, ?_, ?_⟩
    · rw [hf, hs, hm, hr]; simp
    · rw [hf, hr]; simp
    · exact ComposeStations_order genImage stations center config0 config1
  · obtain ⟨hst, hcf, hb⟩ := h
    obtain ⟨hh, hs, hc, hm, hr, _, _, hf, _⟩ := rightBlock_emit _ _ _ _ _ _ _ _ _ hb
    refine ⟨⟨k, station, code, hs, hc, Or.inr (Or.inl ⟨hm, hr, hst, hcf, hh, hf⟩)⟩,
      ⟨if code = ">2" then "sh" else "dh", by split_ifs <;> simp, ?_⟩, ?_, ?_⟩
    · rw [hf, hs, hm, hr]; simp
    · rw [hf, hr]; simp
    · exact ComposeStations_order genImage stations center config0 config1
  · obtain ⟨hst, hcf, hb⟩ := h
    obtain ⟨hh, hs, hc, hm, hr, _, _, hf, _⟩ := leftBlock_emit _ _ _ _ _ _ _ _ _ hb
    refine ⟨⟨k, station, code, hs, hc, Or.inr (Or.inr (Or.inl ⟨hm, hr, hst, hcf, hh, hf⟩))⟩,
      ⟨if code = "<2" then "sh" else "dh", by split_ifs <;> simp, ?_⟩, ?_, ?_⟩
    · rw [hf, hs, hm, hr]; simp
    · rw [hf, hr]; simp
    · exact ComposeStations_order genImage stations center config0 config1
  · obtain ⟨hst, hcf, hb⟩ := h
    obtain ⟨hh, hs, hc, hm, hr, _, _, hf, _⟩ := rightBlock_emit _ _ _ _ _ _ _ _ _ hb
    refine ⟨⟨k, station, code, hs, hc, Or.inr (Or.inr (Or.inr ⟨hm, hr, hst, hcf, hh, hf⟩))⟩,
      ⟨if code = ">2" then "sh" else "dh", by split_ifs <;> simp, ?_⟩, ?_, ?_⟩
    · rw [hf, hs, hm, hr]; simp
    · rw [hf, hr]; simp
    · exact ComposeStations_order genImage stations center config0 config1

/-- C14, as amended, at a segment of two stations with the codes `>1`, `<1`
in `config[1]`. -/
theorem ComposeStations_filename_witness :
    ∃ e, e ∈ (ComposeStations (fun _ _ _ => true) ["1+01", "1+00"] ["1+01", "1+00"]
        ["0", "0"] [">1", "<1"]).calls ∧
      e.mirrored = false ∧ e.rightward = true ∧
      ["1+01", "1+00"][0]? = some e.station ∧ [">1", "<1"][0]? = some e.code ∧
      e.filename = "dh1+01-#" ∧
      (∃ (k : Nat) (station code : String), e.station = station ∧ e.code = code ∧
        ((e.mirrored = false ∧ e.rightward = false ∧
          ["1+01", "1+00"][k]? = some station ∧ ["0", "0"][k]? = some code ∧
          code.data.head? = some '<' ∧
          e.filename = (if code = "<2" then "sh" else "dh") ++ station ++ "+") ∨
         (e.mirrored = false ∧ e.rightward = true ∧
          ["1+01", "1+00"][k]? = some station ∧ [">1", "<1"][k]? = some code ∧
          code.data.head? = some '>' ∧
          e.filename = (if code = ">2" then "sh" else "dh") ++ station ++ "-" ++ "#") ∨
         (e.mirrored = true ∧ e.rightward = false ∧
          (reverse ["1+01", "1+00"])[k]? = some station ∧
          (reverse [">1", "<1"])[k]? = some code ∧
          code.data.head? = some '<' ∧
          e.filename = (if code = "<2" then "sh" else "dh") ++ station ++ "-") ∨
         (e.mirrored = true ∧ e.rightward = true ∧
          (reverse ["1+01", "1+00"])[k]? = some station ∧
          (reverse ["0", "0"])[k]? = some code ∧
          code.data.head? = some '>' ∧
          e.filename = (if code = ">2" then "sh" else "dh") ++ station ++ "+" ++ "#"))) ∧
      (∃ pre, (pre = "sh" ∨ pre = "dh") ∧
        e.filename = pre ++ e.station ++
          (if e.mirrored = e.rightward then "+" else "-") ++
          (if e.rightward = true then "#" else "")) ∧
      (e.filename.data.getLast? = some '#' ↔ e.rightward = true) ∧
      (∃ c1 c2, (ComposeStations (fun _ _ _ => true) ["1+01", "1+00"] ["1+01", "1+00"]
          ["0", "0"] [">1", "<1"]).calls = c1 ++ c2 ∧
        (∀ x ∈ c1, x.mirrored = false) ∧ (∀ x ∈ c2, x.mirrored = true)) :=
  (List.exists_mem_of_ne_nil
    ((ComposeStations (fun _ _ _ => true) ["1+01", "1+00"] ["1+01", "1+00"]
      ["0", "0"] [">1", "<1"]).calls.filter
      (fun e => decide (e.mirrored = false ∧ e.rightward = true ∧
        ["1+01", "1+00"][0]? = some e.station ∧ [">1", "<1"][0]? = some e.code ∧
        e.filename = "dh1+01-#")))
    (by decide)).elim
    (fun e he =>
      ⟨e, (List.mem_filter.mp he).1,
        (of_decide_eq_true (List.mem_filter.mp he).2).1,
        (of_decide_eq_true (List.mem_filter.mp he).2).2.1,
        (of_decide_eq_true (List.mem_filter.mp he).2).2.2.1,
        (of_decide_eq_true (List.mem_filter.mp he).2).2.2.2.1,
        (of_decide_eq_true (List.mem_filter.mp he).2).2.2.2.2,
        ComposeStations_filename _ _ _ _ _ e (List.mem_filter.mp he).1⟩)

/-- C14 fails as stated: with `config[1] = [">1", "<1"]` the first loop emits
`dh1+01-#`, a name that ends in `#`, and the loop after the reversal emits
`dh1+00-`, a name that does not. -/
theorem ComposeStations_filename_counterexample :
    (ComposeStations (fun _ _ _ => true) ["1+01", "1+00"] ["1+01", "1+00"]
        ["0", "0"] [">1", "<1"]).calls.map
        (fun e => (e.filename, e.mirrored))
      = [("dh1+01-#", false), ("dh1+00-", true)] ∧
    (ComposeStations (fun _ _ _ => true) ["1+01", "1+00"] ["1+01", "1+00"]
        ["0", "0"] [">1", "<1"]).ending
      = Ending.completed := by
  decide

/-- C13, as amended: `ComposeStations` generates a sign for a config code only
when the first character of the code is the one the block tests (`<` or `>`),
and a block skips a code exactly when the code is non-empty with another first
character, such as `0`, which is not an error: the code `<2` (`>2`) gives the
detailed `sh` sign of two rows, and every other code with the tested first
character, such as `<1`, `<3` or `<`, gives the compact `dh` sign of one row. -/
theorem ComposeStations_code (genImage : Nat → List (List String) → String → Bool)
    (stations center config0 config1 : List String)
    (e : Emitted) (he : e ∈ (ComposeStations genImage stations center config0 config1).calls) :
    e.code.data.head? = some (if e.rightward = true then '>' else '<') ∧
    (e.code = (if e.rightward = true then ">2" else "<2") →
      e.files.length = 2 ∧ e.length = 20 ∧ ∃ rest, e.filename = "sh" ++ rest) ∧
    (e.code ≠ (if e.rightward = true then ">2" else "<2") →
      e.files.length = 1 ∧ e.length = compactLength stations ∧
      ∃ rest, e.filename = "dh" ++ rest) ∧
    (∀ (st ce : List String) (line d : String) (mir : Bool) (num : Nat)
        (station code : String),
      leftBlock st ce line d mir num station code = Step.skip ↔
        code ≠ "" ∧ code.data.head? ≠ some '<') ∧
    (∀ (st ce : List String) (line d : String) (mir : Bool) (num : Nat)
        (station code : String),
      rightBlock st ce line d mir num station code = Step.skip ↔
        code ≠ "" ∧ code.data.head? ≠ some '>') := by
  refine ⟨?_, ?_, ?_, leftBlock_skip_iff, rightBlock_skip_iff⟩
  · obtain ⟨line, k, station, code, _, h | h | h | h⟩ :=
      ComposeStations_mem genImage stations center config0 config1 e he
    · obtain ⟨hh, _, hc, _, hr, _⟩ := leftBlock_emit _ _ _ _ _ _ _ _ _ h
      rw [hc, hr]; simpa using hh
    · obtain ⟨hh, _, hc, _, hr, _⟩ := rightBlock_emit _ _ _ _ _ _ _ _ _ h
      rw [hc, hr]; simpa using hh
    · obtain ⟨hh, _, hc, _, hr, _⟩ := leftBlock_emit _ _ _ _ _ _ _ _ _ h
      rw [hc, hr]; simpa using hh
    · obtain ⟨hh, _, hc, _, hr, _⟩ := rightBlock_emit _ _ _ _ _ _ _ _ _ h
      rw [hc, hr]; simpa using hh
  · intro hcode
    obtain ⟨line, k, station, code, _, h | h | h | h⟩ :=
      ComposeStations_mem genImage stations center config0 config1 e he
    · obtain ⟨_, _, hc, _, hr, hl, _, hf, row2, _, hfiles⟩ := leftBlock_emit _ _ _ _ _ _ _ _ _ h
      rw [hc, hr] at hcode
      have hcode2 : code = "<2" := by simpa using hcode
      rw [hfiles, hl, hf, if_pos hcode2, if_pos hcode2, if_pos hcode2]
      exact ⟨rfl, rfl, _, String.append_assoc _ _ _⟩
    · obtain ⟨_, _, hc, _, hr, hl, _, hf, row2, _, hfiles⟩ := rightBlock_emit _ _ _ _ _ _ _ _ _ h
      rw [hc, hr] at hcode
      have hcode2 : code = ">2" := by simpa using hcode
      rw [hfiles, hl, hf, if_pos hcode2, if_pos hcode2, if_pos hcode2]
      exact ⟨rfl, rfl, _, by rw [String.append_assoc, String.append_assoc]⟩
    · obtain ⟨_, _, hc, _, hr, hl, _, hf, row2, _, hfiles⟩ := leftBlock_emit _ _ _ _ _ _ _ _ _ h
      rw [hc, hr] at hcode
      have hcode2 : code = "<2" := by simpa using hcode
      rw [hfiles, hl, hf, if_pos hcode2, if_pos hcode2, if_pos hcode2]
      exact ⟨rfl, rfl, _, String.append_assoc _ _ _⟩
    · obtain ⟨_, _, hc, _, hr, hl, _, hf, row2, _, hfiles⟩ := rightBlock_emit _ _ _ _ _ _ _ _ _ h
      rw [hc, hr] at hcode
      have hcode2 : code = ">2" := by simpa using hcode
      rw [hfiles, hl, hf, if_pos hcode2, if_pos hcode2, if_pos hcode2]
      exact ⟨rfl, rfl, _, by rw [String.append_assoc, String.append_assoc]⟩
  · intro hcode
    obtain ⟨line, k, station, code, _, h | h | h | h⟩ :=
      ComposeStations_mem genImage stations center config0 config1 e he
    · obtain ⟨_, _, hc, _, hr, hl, _, hf, row2, _, hfiles⟩ := leftBlock_emit _ _ _ _ _ _ _ _ _ h
      rw [hc, hr] at hcode
      have hcode2 : ¬ code = "<2" := by simpa using hcode
      rw [hfiles, hl, hf, if_neg hcode2, if_neg hcode2, if_neg hcode2]
      exact ⟨rfl, rfl, _, String.append_assoc _ _ _⟩
    · obtain ⟨_, _, hc, _, hr, hl, _, hf, row2, _, hfiles⟩ := rightBlock_emit _ _ _ _ _ _ _ _ _ h
      rw [hc, hr] at hcode
      have hcode2 : ¬ code = ">2" := by simpa using hcode
      rw [hfiles, hl, hf, if_neg hcode2, if_neg hcode2, if_neg hcode2]
      exact ⟨rfl, rfl, _, by rw [String.append_assoc, String.append_assoc]⟩
    · obtain ⟨_, _, hc, _, hr, hl, _, hf, row2, _, hfiles⟩ := leftBlock_emit _ _ _ _ _ _ _ _ _ h
      rw [hc, hr] at hcode
      have hcode2 : ¬ code = "<2" := by simpa using hcode
      rw [hfiles, hl, hf, if_neg hcode2, if_neg hcode2, if_neg hcode2]
      exact ⟨rfl, compactLength_reverse stations, _, String.append_assoc _ _ _⟩
    · obtain ⟨_, _, hc, _, hr, hl, _, hf, row2, _, hfiles⟩ := rightBlock_emit _ _ _ _ _ _ _ _ _ h
      rw [hc, hr] at hcode
      have hcode2 : ¬ code = ">2" := by simpa using hcode
      rw [hfiles, hl, hf, if_neg hcode2, if_neg hcode2, if_neg hcode2]
      exact ⟨rfl, compactLength_reverse stations, _,
        by rw [String.append_assoc, String.append_assoc]⟩

/-- C13, as amended, at a segment whose `config[0]` holds the codes `<3`, `<`. -/
theorem ComposeStations_code_witness :
    ∃ e, e ∈ (ComposeStations (fun _ _ _ => true) ["1+01", "1+00"] ["1+01", "1+00"] ["<3", "<"]
        ["0", ">x"]).calls ∧
      (e.code.data.head? = some (if e.rightward = true then '>' else '<') ∧
      (e.code = (if e.rightward = true then ">2" else "<2") →
        e.files.length = 2 ∧ e.length = 20 ∧ ∃ rest, e.filename = "sh" ++ rest) ∧
      (e.code ≠ (if e.rightward = true then ">2" else "<2") →
        e.files.length = 1 ∧ e.length = compactLength ["1+01", "1+00"] ∧
        ∃ rest, e.filename = "dh" ++ rest) ∧
      (∀ (st ce : List String) (line d : String) (mir : Bool) (num : Nat)
          (station code : String),
        leftBlock st ce line d mir num station code = Step.skip ↔
          code ≠ "" ∧ code.data.head? ≠ some '<') ∧
      (∀ (st ce : List String) (line d : String) (mir : Bool) (num : Nat)
          (station code : String),
        rightBlock st ce line d mir num station code = Step.skip ↔
          code ≠ "" ∧ code.data.head? ≠ some '>')) :=
  (List.exists_mem_of_ne_nil
    (ComposeStations (fun _ _ _ => true) ["1+01", "1+00"] ["1+01", "1+00"] ["<3", "<"] ["0", ">x"]).calls
    (by decide)).elim
    (fun e he => ⟨e, he, ComposeStations_code _ _ _ _ _ e he⟩)

/-- C13 fails as stated: the codes `<3`, `<` and `>x` are none of `<1`, `<2`,
`>1`, `>2`, and each of them generates a compact sign. -/
theorem ComposeStations_code_counterexample :
    (ComposeStations (fun _ _ _ => true) ["1+01", "1+00"] ["1+01", "1+00"] ["<3", "<"] ["0", ">x"]).calls.map
        (fun e => (e.code, e.filename))
      = [("<3", "dh1+01+"), ("<", "dh1+00+"), (">x", "dh1+00-#")] := by
  decide

/-- C12, as amended: when an `Arrange` call made by `ComposeStations` returns
a validation error, `ComposeStations` discards the error (`row2, _ :=`) and
takes the nil row: the block still hands a grid for that sign to `GenImage`,
the header row followed by an empty row for a detailed sign, the header tiles
alone for a compact sign. The error is not propagated and does not abort
generation: when no block stops the program with an index out of range and
every call of `GenImage` returns, both loops run to their end and the sign of
every block is handed over. -/
theorem ComposeStations_discards_error
    (genImage : Nat → List (List String) → String → Bool)
    (stations center config0 config1 : List String) :
    (∀ e ∈ (ComposeStations genImage stations center config0 config1).calls,
      ∀ err, e.arranged = Outcome.error err →
        ∃ h, (e.files = [h, []] ∧ h.length = 20) ∨
          (e.files = [h] ∧ (h.length : Int) + compactLength stations = 22)) ∧
    (∀ line, lineOf stations = LineCut.text line →
      Step.crash ∉ allSteps stations center config0 config1 line →
      (∀ n files filename, genImage n files filename = true) →
      (ComposeStations genImage stations center config0 config1).ending
        = Ending.completed ∧
      ∀ e, Step.emit e ∈ allSteps stations center config0 config1 line →
        e ∈ (ComposeStations genImage stations center config0 config1).calls) ∧
    (∀ (st ce : List String) (line d : String) (mir : Bool) (num : Nat)
        (station code : String) (err : ArrangeError),
      code.data.head? = some '<' →
      Arrange st ce station false (if code = "<2" then 20 else compactLength st)
        ("tc" ++ line) = Outcome.error err →
      ∃ e, leftBlock st ce line d mir num station code = Step.emit e ∧
        e.arranged = Outcome.error err) ∧
    (∀ (st ce : List String) (line d : String) (mir : Bool) (num : Nat)
        (station code : String) (err : ArrangeError),
      code.data.head? = some '>' →
      Arrange st ce station true (if code = ">2" then 20 else compactLength st)
        ("tc" ++ line) = Outcome.error err →
      ∃ e, rightBlock st ce line d mir num station code = Step.emit e ∧
        e.arranged = Outcome.error err) := by
  refine ⟨?_, ?_, leftBlock_of_error, rightBlock_of_error⟩
  · intro e he err harr
    obtain ⟨line, k, station, code, _, h | h | h | h⟩ :=
      ComposeStations_mem genImage stations center config0 config1 e he
    · obtain ⟨_, _, _, _, _, _, _, _, row2, hrow, hfiles⟩ := leftBlock_emit _ _ _ _ _ _ _ _ _ h
      exact files_of_error stations e err _ _ row2 _ (leftDetailedHeader_length _ _ _ _)
        (leftCompactHeader_length _ _ _ _ _) harr hrow (Or.inl hfiles)
    · obtain ⟨_, _, _, _, _, _, _, _, row2, hrow, hfiles⟩ := rightBlock_emit _ _ _ _ _ _ _ _ _ h
      exact files_of_error stations e err _ _ row2 _ (rightDetailedHeader_length _ _ _ _ _)
        (rightCompactHeader_length _ _ _ _ _) harr hrow (Or.inr hfiles)
    · obtain ⟨_, _, _, _, _, _, _, _, row2, hrow, hfiles⟩ := leftBlock_emit _ _ _ _ _ _ _ _ _ h
      exact files_of_error stations e err _ _ row2 _ (leftDetailedHeader_length _ _ _ _)
        (by rw [← compactLength_reverse]; exact leftCompactHeader_length _ _ _ _ _)
        harr hrow (Or.inl hfiles)
    · obtain ⟨_, _, _, _, _, _, _, _, row2, hrow, hfiles⟩ := rightBlock_emit _ _ _ _ _ _ _ _ _ h
      exact files_of_error stations e err _ _ row2 _ (rightDetailedHeader_length _ _ _ _ _)
        (by rw [← compactLength_reverse]; exact rightCompactHeader_length _ _ _ _ _)
        harr hrow (Or.inr hfiles)
  · intro line hline hcrash hgen
    have h := runSteps_complete genImage hgen _ 0 hcrash
    unfold ComposeStations
    rw [hline]
    exact h

/-- C12, as amended, at a segment with a 1-element anchor and the code `<2`
for its first station. -/
theorem ComposeStations_discards_error_witness :
    ∃ e, e ∈ (ComposeStations (fun _ _ _ => true) ["1+01", "1+00"] ["1+01"] ["<2", "0"] ["0", "0"]).calls ∧
      e.arranged = Outcome.error ArrangeError.parity ∧
      ∃ h, (e.files = [h, []] ∧ h.length = 20) ∨
        (e.files = [h] ∧ (h.length : Int) + compactLength ["1+01", "1+00"] = 22) :=
  (List.exists_mem_of_ne_nil
    ((ComposeStations (fun _ _ _ => true) ["1+01", "1+00"] ["1+01"] ["<2", "0"] ["0", "0"]).calls.filter
      (fun e => decide (e.arranged = Outcome.error ArrangeError.parity)))
    (by decide)).elim
    (fun e he =>
      ⟨e, (List.mem_filter.mp he).1, of_decide_eq_true (List.mem_filter.mp he).2,
        (ComposeStations_discards_error (fun _ _ _ => true) ["1+01", "1+00"] ["1+01"]
          ["<2", "0"] ["0", "0"]).1
          e (List.mem_filter.mp he).1 _ (of_decide_eq_true (List.mem_filter.mp he).2)⟩)

/-- C12 fails as stated: for the first station of this segment `Arrange`
returns the parity error (1-element anchor, `length = 20`), and
`ComposeStations` still calls `GenImage` for the sign `sh1+01+`, with the
header row and an empty row, and ends normally. -/
theorem ComposeStations_discards_error_counterexample :
    Arrange ["1+01", "1+00"] ["1+01"] "1+01" false 20 "tc1"
      = Outcome.error ArrangeError.parity ∧
    (ComposeStations (fun _ _ _ => true) ["1+01", "1+00"] ["1+01"] ["<2", "0"] ["0", "0"]).calls.map
        (fun e => (e.filename, e.files, e.arranged))
      = [("sh1+01+",
          [["", "", "", "", "", "", "", "tc1+", "tcfenge", "tczm1+01", "",
            "tczhongdianzhan", "", "", "", "", "", "", "", ""], []],
          Outcome.error ArrangeError.parity)] ∧
    (ComposeStations (fun _ _ _ => true) ["1+01", "1+00"] ["1+01"] ["<2", "0"] ["0", "0"]).ending = Ending.completed := by
  decide

/-- C15: for every compact sign emitted by `ComposeStations` whose `Arrange`
call returned a row, the grid is a single row of 22 tokens: 8 header tiles and
the row of `Arrange` at `length = 14` when the segment has 14 stations or
fewer, 7 header tiles and the row at `length = 15` otherwise, in both loops
and for both kinds of block. -/
theorem ComposeStations_compact_width (genImage : Nat → List (List String) → String → Bool)
    (stations center config0 config1 : List String)
    (e : Emitted) (he : e ∈ (ComposeStations genImage stations center config0 config1).calls)
    (hcompact : e.code ≠ (if e.rightward = true then ">2" else "<2"))
    (r : List String) (hr : e.arranged = Outcome.row r) :
    (∃ rest, e.filename = "dh" ++ rest) ∧
    e.length = (if stations.length ≤ 14 then 14 else 15) ∧
    (r.length : Int) = e.length ∧
    ∃ hdr, (hdr.length : Int) = (if stations.length ≤ 14 then 8 else 7) ∧
      e.files = [if e.rightward = true then r ++ hdr else hdr ++ r] ∧
      (if e.rightward = true then r ++ hdr else hdr ++ r).length = 22 := by
  obtain ⟨line, k, station, code, _, h | h | h | h⟩ :=
    ComposeStations_mem genImage stations center config0 config1 e he
  · obtain ⟨hrw, hname, hl, hrl, hfiles⟩ := leftBlock_compact_row _ _ _ _ _ _ _ _ e h
      (by intro hc; rw [(leftBlock_emit _ _ _ _ _ _ _ _ _ h).2.2.2.2.1] at hcompact
          exact hcompact (by simpa using hc)) r hr
    obtain ⟨hcl, hh⟩ := compact_header_count stations _
      (leftCompactHeader_length stations line "+" station k)
    rw [hcl] at hl hrl
    refine ⟨hname, hl, by rw [hrl, hl], _, hh, by rw [hfiles, hrw]; simp, ?_⟩
    rw [hrw]
    simp only [Bool.false_eq_true, if_false, List.length_append]
    split_ifs at hh hrl <;> omega
  · obtain ⟨hrw, hname, hl, hrl, hfiles⟩ := rightBlock_compact_row _ _ _ _ _ _ _ _ e h
      (by intro hc; rw [(rightBlock_emit _ _ _ _ _ _ _ _ _ h).2.2.2.2.1] at hcompact
          exact hcompact (by simpa using hc)) r hr
    obtain ⟨hcl, hh⟩ := compact_header_count stations _
      (rightCompactHeader_length stations line "-" station k)
    rw [hcl] at hl hrl
    refine ⟨hname, hl, by rw [hrl, hl], _, hh, by rw [hfiles, hrw]; simp, ?_⟩
    rw [hrw]
    simp only [if_true, List.length_append]
    split_ifs at hh hrl <;> omega
  · obtain ⟨hrw, hname, hl, hrl, hfiles⟩ := leftBlock_compact_row _ _ _ _ _ _ _ _ e h
      (by intro hc; rw [(leftBlock_emit _ _ _ _ _ _ _ _ _ h).2.2.2.2.1] at hcompact
          exact hcompact (by simpa using hc)) r hr
    have hh0 := leftCompactHeader_length (reverse stations) line "-" station k
    rw [compactLength_reverse] at hh0 hl hrl
    obtain ⟨hcl, hh⟩ := compact_header_count stations _ hh0
    rw [hcl] at hl hrl
    refine ⟨hname, hl, by rw [hrl, hl], _, hh, by rw [hfiles, hrw]; simp, ?_⟩
    rw [hrw]
    simp only [Bool.false_eq_true, if_false, List.length_append]
    split_ifs at hh hrl <;> omega
  · obtain ⟨hrw, hname, hl, hrl, hfiles⟩ := rightBlock_compact_row _ _ _ _ _ _ _ _ e h
      (by intro hc; rw [(rightBlock_emit _ _ _ _ _ _ _ _ _ h).2.2.2.2.1] at hcompact
          exact hcompact (by simpa using hc)) r hr
    have hh0 := rightCompactHeader_length (reverse stations) line "+" station k
    rw [compactLength_reverse] at hh0 hl hrl
    obtain ⟨hcl, hh⟩ := compact_header_count stations _ hh0
    rw [hcl] at hl hrl
    refine ⟨hname, hl, by rw [hrl, hl], _, hh, by rw [hfiles, hrw]; simp, ?_⟩
    rw [hrw]
    simp only [if_true, List.length_append]
    split_ifs at hh hrl <;> omega

/-- C15 at a segment of two stations with the code `<1` for the first. -/
theorem ComposeStations_compact_width_witness :
    ∃ e r, e ∈ (ComposeStations (fun _ _ _ => true) ["1+01", "1+00"] ["1+01", "1+00"] ["<1", "0"]
        ["0", "0"]).calls ∧
      e.code ≠ (if e.rightward = true then ">2" else "<2") ∧
      e.arranged = Outcome.row r ∧
      ((∃ rest, e.filename = "dh" ++ rest) ∧
      e.length = (if ["1+01", "1+00"].length ≤ 14 then 14 else 15) ∧
      (r.length : Int) = e.length ∧
      ∃ hdr, (hdr.length : Int) = (if ["1+01", "1+00"].length ≤ 14 then 8 else 7) ∧
        e.files = [if e.rightward = true then r ++ hdr else hdr ++ r] ∧
        (if e.rightward = true then r ++ hdr else hdr ++ r).length = 22) :=
  (List.exists_mem_of_ne_nil
    ((ComposeStations (fun _ _ _ => true) ["1+01", "1+00"] ["1+01", "1+00"] ["<1", "0"] ["0", "0"]).calls.filter
      (fun e => decide (e.code ≠ (if e.rightward = true then ">2" else "<2") ∧
        e.arranged = Outcome.row ["tc1", "tc1", "tc1", "tc1", "tc1", "tc1", "tc1+01@=",
          "tc1+00=", "tc1", "tc1", "tc1", "tc1", "tc1", "tc1"])))
    (by decide)).elim
    (fun e he =>
      ⟨e, _, (List.mem_filter.mp he).1,
        (of_decide_eq_true (List.mem_filter.mp he).2).1,
        (of_decide_eq_true (List.mem_filter.mp he).2).2,
        ComposeStations_compact_width _ _ _ _ _ e (List.mem_filter.mp he).1
          (of_decide_eq_true (List.mem_filter.mp he).2).1 _
          (of_decide_eq_true (List.mem_filter.mp he).2).2⟩)

/-- C20: with a 1-element anchor, `Arrange` at `length = 20` (detailed sign)
and at `length = 14` (compact sign of a segment with 14 stations or fewer)
returns the parity error; for every sign emitted by `ComposeStations` on such
a segment the `Arrange` call of the sign was made with `length` 20, 14 or 15,
returned the parity error when `length` is 20 or 14, and returned a row only
for a compact sign of a segment with exactly 15 stations. -/
theorem ComposeStations_single_anchor (genImage : Nat → List (List String) → String → Bool)
    (stations : List String) (c : String)
    (config0 config1 : List String) :
    (∀ (st : List String) (current : String) (ltr : Bool) (blank : String),
      Arrange st [c] current ltr 20 blank = Outcome.error ArrangeError.parity ∧
      Arrange st [c] current ltr 14 blank = Outcome.error ArrangeError.parity ∧
      (st.length ≤ 14 → Arrange st [c] current ltr (compactLength st) blank
        = Outcome.error ArrangeError.parity)) ∧
    (∀ e ∈ (ComposeStations genImage stations [c] config0 config1).calls,
      (e.length = 20 ∨ e.length = 14 ∨ e.length = 15) ∧
      (e.length = 20 ∨ e.length = 14 → e.arranged = Outcome.error ArrangeError.parity) ∧
      (∀ r, e.arranged = Outcome.row r →
        e.length = 15 ∧ stations.length = 15 ∧ e.files.length = 1 ∧
        ∃ rest, e.filename = "dh" ++ rest)) := by
  have hpar : ∀ (st : List String) (current : String) (ltr : Bool) (blank : String)
      (length : Int), length = 20 ∨ length = 14 →
      Arrange st [c] current ltr length blank = Outcome.error ArrangeError.parity := by
    intro st current ltr blank length hl
    have : length.tmod 2 = 0 := by rcases hl with h | h <;> subst h <;> decide
    simp [Arrange, this]
  have hcl : ∀ st : List String, compactLength st = 14 ∨ compactLength st = 15 := by
    intro st
    unfold compactLength
    split_ifs
    · exact Or.inl rfl
    · exact Or.inr rfl
  have hrc : reverse [c] = [c] := by rw [reverse_eq]; rfl
  have hrlen : (reverse stations).length = stations.length := by rw [reverse_eq]; simp
  -- every call: the length used, the anchor and the station list of its `Arrange`
  have hcall : ∀ e ∈ (ComposeStations genImage stations [c] config0 config1).calls,
      ∃ (st : List String) (station : String) (ltr : Bool) (blank : String),
        st.length = stations.length ∧
        (e.length = 20 ∨ e.length = compactLength st) ∧
        (e.length = 20 → e.files.length = 2) ∧
        (e.length ≠ 20 → e.files.length = 1 ∧ ∃ rest, e.filename = "dh" ++ rest) ∧
        e.arranged = Arrange st [c] station ltr e.length blank := by
    intro e he
    obtain ⟨line, k, station, code, _, h | h | h | h⟩ :=
      ComposeStations_mem genImage stations [c] config0 config1 e he
    · obtain ⟨_, _, _, _, _, hl, harr, hf, row2, _, hfiles⟩ :=
        leftBlock_emit _ _ _ _ _ _ _ _ _ h
      refine ⟨stations, station, false, "tc" ++ line, rfl, ?_, ?_, ?_, harr⟩
      · rw [hl]; split_ifs <;> simp
      · intro h20; rw [hfiles]; split_ifs with hc
        · rfl
        · rw [if_neg hc] at hl; rcases hcl stations with h1 | h1 <;> omega
      · intro h20; rw [hfiles, hf]; split_ifs with hc
        · rw [if_pos hc] at hl; exact absurd hl h20
        · exact ⟨rfl, _, String.append_assoc _ _ _⟩
    · obtain ⟨_, _, _, _, _, hl, harr, hf, row2, _, hfiles⟩ :=
        rightBlock_emit _ _ _ _ _ _ _ _ _ h
      refine ⟨stations, station, true, "tc" ++ line, rfl, ?_, ?_, ?_, harr⟩
      · rw [hl]; split_ifs <;> simp
      · intro h20; rw [hfiles]; split_ifs with hc
        · rfl
        · rw [if_neg hc] at hl; rcases hcl stations with h1 | h1 <;> omega
      · intro h20; rw [hfiles, hf]; split_ifs with hc
        · rw [if_pos hc] at hl; exact absurd hl h20
        · exact ⟨rfl, _, by rw [String.append_assoc, String.append_assoc]⟩
    · obtain ⟨_, _, _, _, _, hl, harr, hf, row2, _, hfiles⟩ :=
        leftBlock_emit _ _ _ _ _ _ _ _ _ h
      rw [hrc] at harr
      refine ⟨reverse stations, station, false, "tc" ++ line, hrlen, ?_, ?_, ?_, harr⟩
      · rw [hl]; split_ifs <;> simp
      · intro h20; rw [hfiles]; split_ifs with hc
        · rfl
        · rw [if_neg hc] at hl; rcases hcl (reverse stations) with h1 | h1 <;> omega
      · intro h20; rw [hfiles, hf]; split_ifs with hc
        · rw [if_pos hc] at hl; exact absurd hl h20
        · exact ⟨rfl, _, String.append_assoc _ _ _⟩
    · obtain ⟨_, _, _, _, _, hl, harr, hf, row2, _, hfiles⟩ :=
        rightBlock_emit _ _ _ _ _ _ _ _ _ h
      rw [hrc] at harr
      refine ⟨reverse stations, station, true, "tc" ++ line, hrlen, ?_, ?_, ?_, harr⟩
      · rw [hl]; split_ifs <;> simp
      · intro h20; rw [hfiles]; split_ifs with hc
        · rfl
        · rw [if_neg hc] at hl; rcases hcl (reverse stations) with h1 | h1 <;> omega
      · intro h20; rw [hfiles, hf]; split_ifs with hc
        · rw [if_pos hc] at hl; exact absurd hl h20
        · exact ⟨rfl, _, by rw [String.append_assoc, String.append_assoc]⟩
  refine ⟨fun st current ltr blank =>
    ⟨hpar st current ltr blank 20 (Or.inl rfl), hpar st current ltr blank 14 (Or.inr rfl),
      fun h14 => hpar st current ltr blank _ (Or.inr (by simp [compactLength, h14]))⟩, ?_⟩
  intro e he
  obtain ⟨st, station, ltr, blank, hst, hlen, h20, hn20, harr⟩ := hcall e he
  refine ⟨?_, ?_, ?_⟩
  · rcases hlen with h | h
    · exact Or.inl h
    · rcases hcl st with h1 | h1
      · exact Or.inr (Or.inl (by rw [h, h1]))
      · exact Or.inr (Or.inr (by rw [h, h1]))
  · intro hl
    rw [harr]
    exact hpar st station ltr blank e.length hl
  · intro r hr
    rw [hr] at harr
    obtain ⟨_, hp, hle, _⟩ := Arrange_row_inv st [c] station ltr e.length blank r harr.symm
    have hne20 : e.length ≠ 20 := by
      intro h
      apply hp
      rw [h]
      exact ⟨rfl, by decide⟩
    have hcomp : e.length = compactLength st := by
      rcases hlen with h | h
      · exact absurd h hne20
      · exact h
    have hne14 : e.length ≠ 14 := by
      intro h
      apply hp
      rw [h]
      exact ⟨rfl, by decide⟩
    have h15 : e.length = 15 := by
      rcases hcl st with h1 | h1
      · rw [h1] at hcomp; exact absurd hcomp hne14
      · rw [hcomp, h1]
    have hgt : ¬ st.length ≤ 14 := by
      intro h
      rw [hcomp] at hne14
      exact hne14 (by simp [compactLength, h])
    refine ⟨h15, by omega, (hn20 hne20).1, (hn20 hne20).2⟩

/-- C20 at a segment of 15 stations whose 1-element anchor is the middle
station, with a compact sign for the first station and a detailed sign for the
second: the compact sign gets a row, the detailed sign the parity error. -/
theorem ComposeStations_single_anchor_witness :
    (ComposeStations (fun _ _ _ => true)
      ["1+07", "1+06", "1+05", "1+04", "1+03", "1+02", "1+01", "1+00",
        "1-01", "1-02", "1-03", "1-04", "1-05", "1-06", "1-07"]
      ["1+00"]
      ["<1", "<2", "0", "0", "0", "0", "0", "0", "0", "0", "0", "0", "0", "0", "0"]
      ["0", "0", "0", "0", "0", "0", "0", "0", "0", "0", "0", "0", "0", "0", "0"]).calls.map
        (fun e => (e.filename, e.length, e.arranged))
      = [("dh1+07+", 15, Outcome.row ["tc1+07@=", "tc1+06=", "tc1+05=", "tc1+04=",
            "tc1+03=", "tc1+02=", "tc1+01=", "tc1+00=", "tc1-01=", "tc1-02=", "tc1-03=",
            "tc1-04=", "tc1-05=", "tc1-06=", "tc1-07="]),
         ("sh1+06+", 20, Outcome.error ArrangeError.parity)] ∧
    ∀ e ∈ (ComposeStations (fun _ _ _ => true)
      ["1+07", "1+06", "1+05", "1+04", "1+03", "1+02", "1+01", "1+00",
        "1-01", "1-02", "1-03", "1-04", "1-05", "1-06", "1-07"]
      ["1+00"]
      ["<1", "<2", "0", "0", "0", "0", "0", "0", "0", "0", "0", "0", "0", "0", "0"]
      ["0", "0", "0", "0", "0", "0", "0", "0", "0", "0", "0", "0", "0", "0", "0"]).calls,
      (e.length = 20 ∨ e.length = 14 ∨ e.length = 15) ∧
      (e.length = 20 ∨ e.length = 14 → e.arranged = Outcome.error ArrangeError.parity) ∧
      (∀ r, e.arranged = Outcome.row r →
        e.length = 15 ∧
        ["1+07", "1+06", "1+05", "1+04", "1+03", "1+02", "1+01", "1+00",
        "1-01", "1-02", "1-03", "1-04", "1-05", "1-06", "1-07"].length = 15 ∧
        e.files.length = 1 ∧ ∃ rest, e.filename = "dh" ++ rest) :=
  ⟨by decide, (ComposeStations_single_anchor _ _ "1+00" _ _).2⟩

/-! ## Line Description Loader -/

/-- C16, the code on the three lines `1:1+01,1+00`, `1+01:<1,>1,9`,
`1+00:<2`: the second line carries three values, so its station is appended
and neither config row is (the `switch` of lines 490-497 has no case for it);
`readSegment` and `ReadStationsFile` return a segment with two stations and
config rows of one entry, in which `<2` stands at the index of `1+01`; on it
`ComposeStations` (with every call of `GenImage` returning) stops with an
index out of range at the second station. -/
theorem readSegment_rows_eval :
    readSegment ["1:1+01,1+00", "1+01:<1,>1,9", "1+00:<2"]
      = (some { stations := ["1+01", "1+00"], center := ["1+01", "1+00"],
                config0 := ["<2"], config1 := ["<2"] }, []) ∧
    ReadStationsFile ["1:1+01,1+00", "1+01:<1,>1,9", "1+00:<2"]
      = [{ stations := ["1+01", "1+00"], center := ["1+01", "1+00"],
           config0 := ["<2"], config1 := ["<2"] }] ∧
    (ComposeStations (fun _ _ _ => true) ["1+01", "1+00"] ["1+01", "1+00"] ["<2"] ["<2"]).ending = Ending.stopped := by
  decide

/-! ## Row Arranger: one station, fit, mirror -/

/-- C17, as amended: for every station id `s`, both directions and every
`blank`, `Arrange([s], [s], s, direction, 1, blank)` returns without error a
row of exactly one cell, `"tc" + s + t`, where `t` is the token
`StationStatus` gives the only station (`@#` ascending, `@` descending); that
cell differs from `blank` if and only if `blank` is not that very token. -/
theorem Arrange_single_station (s : String) (ltr : Bool) (blank : String) :
    ∃ t, StationStatus [s] s ltr = [t] ∧
      t = (if ltr = true then "@#" else "@") ∧
      Arrange [s] [s] s ltr 1 blank = Outcome.row ["tc" ++ s ++ t] ∧
      nonBlankCount blank ["tc" ++ s ++ t] = (if "tc" ++ s ++ t = blank then 0 else 1) := by
  have hst : StationStatus [s] s ltr = [if ltr = true then "@#" else "@"] := by
    cases ltr <;> simp [StationStatus, statusToken, slicesIndex, List.range_succ]
  refine ⟨_, hst, rfl, ?_, ?_⟩
  · have hm : (1 : Int).tmod 2 = 1 := by decide
    have hd : (1 : Int).tdiv 2 = 0 := by decide
    have ht : stationTokens [s] s ltr = ["tc" ++ s ++ (if ltr = true then "@#" else "@")] := by
      simp [stationTokens, hst]
    have hs : search [s] [s] 1 = some (Except.ok 0) := by simp [search, findSingle, hm]
    rw [Arrange_eq_place [s] [s] s ltr 1 blank 0 (Or.inl rfl) (by simp [hm]) (by simp) hs]
    unfold place
    rw [ht]
    simp [centerStartWant, hd, writeCells]
  · unfold nonBlankCount
    by_cases h : "tc" ++ s ++ (if ltr = true then "@#" else "@") = blank
    · simp [h]
    · simp [h]

/-- C17 fails as stated: with `blank = "tcA@#"`, the token of the only
station in the ascending direction, the one cell of the row equals `blank`,
and the row has no cell that differs from `blank`. -/
theorem Arrange_single_station_counterexample :
    StationStatus ["A"] "A" true = ["@#"] ∧
    Arrange ["A"] ["A"] "A" true 1 "tcA@#" = Outcome.row ["tcA@#"] ∧
    nonBlankCount "tcA@#" ["tcA@#"] = 0 := by
  decide

/-- C18: when the checks of `Arrange` pass (anchor size, parity,
`len(stations) <= length`) and its search returns the index `p`, `Arrange`
returns a row if and only if `p <= target` and
`target - p + len(stations) <= length`, with
`target = centerStartWant center length`; otherwise some store index
`target - p + i`, `i < len(stations)`, lies outside `[0, length)` and the
run-time stops the program. -/
theorem Arrange_completes_iff (stations center : List String) (current : String)
    (ltr : Bool) (length : Int) (blank : String) (p : Nat)
    (hshape : center.length = 1 ∨ center.length = 2)
    (hpar : center.length = 1 → ¬ Even length)
    (hlen : (stations.length : Int) ≤ length)
    (hs : search stations center length = some (Except.ok p)) :
    ((∃ r, Arrange stations center current ltr length blank = Outcome.row r) ↔
      ((p : Int) ≤ centerStartWant center length ∧
        centerStartWant center length - (p : Int) + (stations.length : Int) ≤ length)) ∧
    (¬ ((p : Int) ≤ centerStartWant center length ∧
        centerStartWant center length - (p : Int) + (stations.length : Int) ≤ length) →
      Arrange stations center current ltr length blank = Outcome.outOfRange ∧
      ∃ i : Nat, i < stations.length ∧
        ¬ (0 ≤ centerStartWant center length - (p : Int) + (i : Int) ∧
           centerStartWant center length - (p : Int) + (i : Int) < length)) := by
  have h0 : 0 ≤ length := by omega
  have hpar2 : ¬ (center.length = 1 ∧ length.tmod 2 = 0) := by
    rintro ⟨hc, hm⟩
    exact hpar hc (even_iff_two_dvd.mpr (Int.dvd_of_tmod_eq_zero hm))
  have hp : p < stations.length := search_ok_lt stations center length p h0 hs
  have hne : stations ≠ [] := by
    intro h
    rw [h] at hp
    simp at hp
  have heq := Arrange_eq_place stations center current ltr length blank p hshape hpar2 hlen hs
  have hout : ¬ ((p : Int) ≤ centerStartWant center length ∧
        centerStartWant center length - (p : Int) + (stations.length : Int) ≤ length) →
      Arrange stations center current ltr length blank = Outcome.outOfRange := by
    intro hfit
    rw [heq]
    exact place_outOfRange_of_not_fit stations center current ltr length blank p h0 hne hfit
  refine ⟨⟨?_, ?_⟩, ?_⟩
  · rintro ⟨r, hr⟩
    by_contra hfit
    rw [hout hfit] at hr
    cases hr
  · rintro ⟨hlo, hhi⟩
    rw [heq]
    exact place_row_of_fit stations center current ltr length blank p h0 hlo hhi
  · intro hfit
    refine ⟨hout hfit, ?_⟩
    by_cases hlo : (p : Int) ≤ centerStartWant center length
    · refine ⟨stations.length - 1, by omega, ?_⟩
      intro hin
      apply hfit
      refine ⟨hlo, ?_⟩
      have : ((stations.length - 1 : Nat) : Int) = (stations.length : Int) - 1 := by omega
      omega
    · exact ⟨0, by omega, by
        intro hin
        apply hlo
        have := hin.1
        simp only [Nat.cast_zero, add_zero] at this
        omega⟩

/-- C18 at `stations = ["A","B","C"]`, anchor `["A"]`, `length = 3`: the
search gives `p = 0`, `target = 1`, and `1 - 0 + 3 > 3`. -/
theorem Arrange_completes_iff_witness :
    (((∃ r, Arrange ["A", "B", "C"] ["A"] "A" true 3 "_" = Outcome.row r) ↔
      (((0 : Nat) : Int) ≤ centerStartWant ["A"] 3 ∧
        centerStartWant ["A"] 3 - ((0 : Nat) : Int) + ((["A", "B", "C"].length : Nat) : Int)
          ≤ 3)) ∧
    (¬ (((0 : Nat) : Int) ≤ centerStartWant ["A"] 3 ∧
        centerStartWant ["A"] 3 - ((0 : Nat) : Int) + ((["A", "B", "C"].length : Nat) : Int)
          ≤ 3) →
      Arrange ["A", "B", "C"] ["A"] "A" true 3 "_" = Outcome.outOfRange ∧
      ∃ i : Nat, i < ["A", "B", "C"].length ∧
        ¬ (0 ≤ centerStartWant ["A"] 3 - ((0 : Nat) : Int) + (i : Int) ∧
           centerStartWant ["A"] 3 - ((0 : Nat) : Int) + (i : Int) < 3))) ∧
    Arrange ["A", "B", "C"] ["A"] "A" true 3 "_" = Outcome.outOfRange ∧
    Arrange ["A"] ["A", "B"] "A" true 1 "_" = Outcome.outOfRange :=
  ⟨Arrange_completes_iff ["A", "B", "C"] ["A"] "A" true 3 "_" 0
    (by decide) (fun _ => by decide) (by decide) rfl, by decide, by decide⟩

/-- C19: for a station list without duplicate ids, when `Arrange` returns a
row and the search matches the anchor size (1-element anchor with an odd
`length`, or 2-element anchor with an even `length`), `Arrange` on the
reversed station list and the reversed anchor, with the same `length` and
`blank` and any `current` and direction, returns a row too, and the placement
is mirrored: the stations fill the cells `off .. off + len(stations) - 1` of
the first row and the cells `length - off - len(stations) .. length - off - 1`
of the second, so that the station in cell `j` of the first row is the station
in cell `length - 1 - j` of the second, and a cell `j` outside the window is
`blank` in the first row as cell `length - 1 - j` is in the second. -/
theorem Arrange_mirror (stations center : List String) (current current2 : String)
    (ltr ltr2 : Bool) (length : Int) (blank : String) (r : List String)
    (hnodup : stations.Nodup)
    (hrow : Arrange stations center current ltr length blank = Outcome.row r)
    (hmatch : (center.length = 1 ∧ Odd length) ∨ (center.length = 2 ∧ Even length)) :
    ∃ (off : Nat) (r2 : List String),
      Arrange (reverse stations) (reverse center) current2 ltr2 length blank
        = Outcome.row r2 ∧
      off + stations.length ≤ (length : Int).toNat ∧
      r = List.replicate off blank ++ stationTokens stations current ltr ++
        List.replicate ((length : Int).toNat - off - stations.length) blank ∧
      r2 = List.replicate ((length : Int).toNat - off - stations.length) blank ++
        stationTokens (reverse stations) current2 ltr2 ++ List.replicate off blank ∧
      (∀ (i : Nat) (x : String), stations[i]? = some x →
        ∃ t t2, r[off + i]? = some ("tc" ++ x ++ t) ∧
          r2[(length : Int).toNat - 1 - (off + i)]? = some ("tc" ++ x ++ t2)) ∧
      (∀ j, j < (length : Int).toNat → (j < off ∨ off + stations.length ≤ j) →
        r[j]? = some blank ∧ r2[(length : Int).toNat - 1 - j]? = some blank) := by
  obtain ⟨_, _, hlen, p, hs, _⟩ :=
    Arrange_row_inv stations center current ltr length blank r hrow
  have h0 : 0 ≤ length := by omega
  have hp : p < stations.length := search_ok_lt stations center length p h0 hs
  have hnd2 : (reverse stations).Nodup := by
    rw [reverse_eq]
    exact List.nodup_reverse.mpr hnodup
  have hdiv : length.tdiv 2 = length / 2 := Int.tdiv_eq_ediv h0 (by decide)
  rcases hmatch with ⟨hc, hodd⟩ | ⟨hc, heven⟩
  · obtain ⟨c, rfl⟩ := List.length_eq_one.mp hc
    have hm : length.tmod 2 = 1 := tmod_two_of_odd length h0 hodd
    have hmod : length % 2 = 1 := Int.odd_iff.mp hodd
    have hget := findSingle_lt c stations p (search_odd_inv stations c [] length p hm hs)
    have hget2 : (reverse stations)[stations.length - 1 - p]? = some c := by
      rw [reverse_eq, List.getElem?_reverse (by omega), ← hget]
      congr 1
      omega
    have hrc : reverse [c] = [c] := by rw [reverse_eq]; rfl
    have hs2 : search (reverse stations) (reverse [c]) length
        = some (Except.ok (stations.length - 1 - p)) := by
      rw [hrc]
      exact search_single_odd _ c [] length _ hm
        (findSingle_of_nodup c _ _ hnd2 hget2)
    refine Arrange_mirror_core stations [c] current current2 ltr ltr2 length blank r p
      (stations.length - 1 - p) hrow hs hs2 ?_
    have hT : centerStartWant [c] length = length / 2 := by
      simp [centerStartWant, hdiv]
    rw [hT]
    have : ((stations.length - 1 - p : Nat) : Int) = (stations.length : Int) - 1 - p := by
      omega
    omega
  · obtain ⟨c0, c1, rfl⟩ := List.length_eq_two.mp hc
    have hm : length.tmod 2 = 0 := tmod_two_of_even length heven
    have hmod : length % 2 = 0 := Int.even_iff.mp heven
    obtain ⟨hg0, hg1⟩ := findPair_lt c0 c1 stations p
      (search_even_inv stations c0 c1 length p hm hs)
    have hp1 : p + 1 < stations.length := (List.getElem?_eq_some_iff.mp hg1).1
    have hq0 : (reverse stations)[stations.length - 2 - p]? = some c1 := by
      rw [reverse_eq, List.getElem?_reverse (by omega), ← hg1]
      congr 1
      omega
    have hq1 : (reverse stations)[stations.length - 2 - p + 1]? = some c0 := by
      rw [reverse_eq, List.getElem?_reverse (by omega), ← hg0]
      congr 1
      omega
    have hrc : reverse [c0, c1] = [c1, c0] := by rw [reverse_eq]; rfl
    have hs2 : search (reverse stations) (reverse [c0, c1]) length
        = some (Except.ok (stations.length - 2 - p)) := by
      rw [hrc]
      exact search_pair_even _ c1 c0 length _ hm
        (findPair_of_nodup c1 c0 _ _ hnd2 hq0 hq1)
    refine Arrange_mirror_core stations [c0, c1] current current2 ltr ltr2 length blank r p
      (stations.length - 2 - p) hrow hs hs2 ?_
    have hT : centerStartWant [c0, c1] length = length / 2 - 1 := by
      simp [centerStartWant, hdiv]
    rw [hT]
    have : ((stations.length - 2 - p : Nat) : Int) = (stations.length : Int) - 2 - p := by
      omega
    omega

/-- C19 at `stations = ["A","B","C","D"]`, anchor `["B","C"]`, `length = 6`:
the rows are `_ A B C D _` and `_ D C B A _`. -/
theorem Arrange_mirror_witness :
    Arrange (reverse ["A", "B", "C", "D"]) (reverse ["B", "C"]) "C" false 6 "_"
      = Outcome.row ["_", "tcD", "tcC@", "tcB=", "tcA=", "_"] ∧
    ∃ (off : Nat) (r2 : List String),
      Arrange (reverse ["A", "B", "C", "D"]) (reverse ["B", "C"]) "C" false 6 "_"
        = Outcome.row r2 ∧
      off + ["A", "B", "C", "D"].length ≤ (6 : Int).toNat ∧
      ["_", "tcA#=", "tcB@=", "tcC", "tcD#", "_"] = List.replicate off "_" ++ stationTokens ["A", "B", "C", "D"] "B" true ++
        List.replicate ((6 : Int).toNat - off - ["A", "B", "C", "D"].length) "_" ∧
      r2 = List.replicate ((6 : Int).toNat - off - ["A", "B", "C", "D"].length) "_" ++
        stationTokens (reverse ["A", "B", "C", "D"]) "C" false ++ List.replicate off "_" ∧
      (∀ (i : Nat) (x : String), ["A", "B", "C", "D"][i]? = some x →
        ∃ t t2, ["_", "tcA#=", "tcB@=", "tcC", "tcD#", "_"][off + i]? = some ("tc" ++ x ++ t) ∧
          r2[(6 : Int).toNat - 1 - (off + i)]? = some ("tc" ++ x ++ t2)) ∧
      (∀ j, j < (6 : Int).toNat → (j < off ∨ off + ["A", "B", "C", "D"].length ≤ j) →
        ["_", "tcA#=", "tcB@=", "tcC", "tcD#", "_"][j]? = some "_" ∧ r2[(6 : Int).toNat - 1 - j]? = some "_") :=
  ⟨by decide,
   Arrange_mirror ["A", "B", "C", "D"] ["B", "C"] "B" "C" true false 6 "_" _
    (by decide) (by decide) (Or.inr ⟨by decide, by decide⟩)⟩

end Tongchangzuhe
